import Mathlib

/-!
Verification of the delphi-devkit build-orchestration backend.

This development shallowly embeds the project/workspace data model
(`src/server/src/projects/project_data.rs`, `workspace.rs`,
`group_project.rs`), the compiler-configuration registry
(`compiler_config.rs`), the change-application layer (`changes.rs`,
`mod.rs`) and the build-orchestration engine (`compiler.rs`) as Lean
functions and proves/refutes the spec's claims about them.

Rust `usize` ids become `Nat` (ids are allocated by a monotone counter
and never wrap in practice); `HashMap` becomes an association list with
unique keys; fallible functions return `Except String`.  Filesystem and
process effects are threaded explicitly through environment records.
-/

namespace DDK

/-- Modelled from the spec: the fractional-ranking ("LexoRank") module is
referenced via `crate::lexorank` but its source is not under `src/`.
Per spec §4.1 the type supports a total order, `next()` strictly greater
than its receiver, and `apply()` which rebalances a whole sibling list to
evenly spaced ranks in current order.  We model a rank as `Nat`. -/
abbrev LexoRank := Nat

/-- Modelled from the spec: the initial/default rank. -/
def LexoRank.defaultRank : LexoRank := 0

/-- Modelled from the spec: `next()` returns a rank strictly greater than
its receiver (spec §4.1). -/
def LexoRank.next (r : LexoRank) : LexoRank := r + 8

/-- Modelled from the spec: the rank assigned to position `i` by
`LexoRank::apply`, which "recomputes evenly spaced ranks for the whole
sibling list" in current order (spec §4.1). -/
def LexoRank.applyRank (i : Nat) : LexoRank := (i + 1) * 8

theorem LexoRank.next_gt (r : LexoRank) : r < r.next := by
  simp [LexoRank.next]

theorem LexoRank.applyRank_lt {a b : Nat} (h : a < b) :
    LexoRank.applyRank a < LexoRank.applyRank b := by
  show (a + 1) * 8 < (b + 1) * 8
  omega

/-- `ProjectLink` (spec §3; fields as constructed throughout
`project_data.rs`). -/
structure ProjectLink where
  id : Nat
  project_id : Nat
  sort_rank : LexoRank
deriving DecidableEq, Repr

/-- `Project` — the struct definition file (`project.rs`) is not under
`src/`, but every field is pinned by the construction sites in
`project_data.rs::new_project` and `group_project.rs::fill`. -/
structure Project where
  id : Nat
  name : String
  directory : String
  dproj : Option String
  dpr : Option String
  dpk : Option String
  exe : Option String
  ini : Option String
deriving DecidableEq, Repr

/-- `Workspace` (`workspace.rs`). -/
structure Workspace where
  id : Nat
  name : String
  compiler_id : String
  project_links : List ProjectLink
  sort_rank : LexoRank
deriving DecidableEq, Repr

/-- `GroupProject` (`group_project.rs`).  Note: the constructor in
`project_data.rs::set_group_project` omits `compiler_id`; the group
compiler actually used everywhere else is
`ProjectsData.group_project_compiler_id`. -/
structure GroupProject where
  name : String
  path : String
  compiler_id : String
  project_links : List ProjectLink
deriving DecidableEq, Repr

/-- `ProjectsData` (`project_data.rs`). -/
structure ProjectsData where
  id_counter : Nat
  active_project_id : Option Nat
  workspaces : List Workspace
  projects : List Project
  group_project : Option GroupProject
  group_project_compiler_id : String
deriving DecidableEq, Repr

/-- `ProjectsData::default` (`project_data.rs` lines 25-36). -/
def ProjectsData.defaultData : ProjectsData :=
  { id_counter := 0
    active_project_id := none
    workspaces := []
    projects := []
    group_project := none
    group_project_compiler_id := "12.0" }

/-- `CompilerConfiguration` (`compiler_config.rs`). -/
structure CompilerConfiguration where
  condition : String
  product_name : String
  product_version : Nat
  package_version : Nat
  compiler_version : Nat
  installation_path : String
  build_arguments : List String
deriving DecidableEq, Repr

/-- `CompilerConfigurations` (`compiler_config.rs`): a `HashMap<String,
CompilerConfiguration>` modelled as an association list (keys unique in
any map produced by the `HashMap` operations). -/
structure CompilerConfigurations where
  _compilers : List (String × CompilerConfiguration)
deriving DecidableEq, Repr

namespace CompilerConfigurations

/-- `HashMap::contains_key`. -/
def contains_key (c : CompilerConfigurations) (key : String) : Bool :=
  (c._compilers.lookup key).isSome

/-- `HashMap::get`. -/
def get (c : CompilerConfigurations) (key : String) : Option CompilerConfiguration :=
  c._compilers.lookup key

/-- `HashMap::remove`: the returned value (`Option<V>`). -/
def removeGet (c : CompilerConfigurations) (key : String) : Option CompilerConfiguration :=
  c._compilers.lookup key

/-- `HashMap::remove`: the map afterwards. -/
def removeMap (c : CompilerConfigurations) (key : String) : CompilerConfigurations :=
  ⟨c._compilers.filter (fun p => p.1 ≠ key)⟩

/-- `HashMap::insert` (replaces an existing binding for the key). -/
def insert (c : CompilerConfigurations) (key : String) (v : CompilerConfiguration) :
    CompilerConfigurations :=
  ⟨(key, v) :: c._compilers.filter (fun p => p.1 ≠ key)⟩

end CompilerConfigurations

/-- `compiler_exists` (`compiler_config.rs` lines 210-212).  In Rust it
re-reads the registry file; here the registry is passed explicitly. -/
def compiler_exists (reg : CompilerConfigurations) (key : String) : Bool :=
  reg.contains_key key

/-- Rust's `s.trim().is_empty()`: true iff every character of `s` is
whitespace.  (Expressed character-wise because it is used in decidable
checks; `trim` removes exactly the leading/trailing whitespace, so the
trimmed string is empty iff all characters are whitespace.) -/
def trimIsEmpty (s : String) : Bool := s.data.all (fun c => c.isWhitespace)

/-- The tag stored in the id map (`project_data.rs` lines 9-13). -/
inductive IdObject where
  | workspace
  | project
  | projectLink
deriving DecidableEq, Repr

namespace ProjectsData

/-- The workspace loop of `validate_compilers`. -/
def checkWorkspaceCompilers (reg : CompilerConfigurations) : List Workspace → Except String Unit
  | [] => .ok ()
  | ws :: rest =>
    if !(compiler_exists reg ws.compiler_id) then
      .error ("Workspace has invalid compiler id: " ++ ws.compiler_id)
    else checkWorkspaceCompilers reg rest

/-- `ProjectsData::validate_compilers` (`project_data.rs` lines 67-77),
with the registry passed explicitly instead of read from disk. -/
def validate_compilers (reg : CompilerConfigurations) (d : ProjectsData) :
    Except String Unit := do
  checkWorkspaceCompilers reg d.workspaces
  if !(compiler_exists reg d.group_project_compiler_id) then
    throw ("Group project compiler has invalid id: " ++ d.group_project_compiler_id)
  return ()

/-- The sequence of (id, tag) pairs exactly in the order the nested
loops of `ProjectsData::get_id_map` (`project_data.rs` lines 79-108)
visit them: each workspace id followed by its link ids, then the group
project's link ids, then the project ids. -/
def idSeq (d : ProjectsData) : List (Nat × IdObject) :=
  (d.workspaces.flatMap fun ws =>
    (ws.id, IdObject.workspace) :: ws.project_links.map (fun l => (l.id, IdObject.projectLink)))
  ++ (match d.group_project with
      | some g => g.project_links.map (fun l => (l.id, IdObject.projectLink))
      | none => [])
  ++ d.projects.map (fun p => (p.id, IdObject.project))

/-- The check-then-insert loop body of `get_id_map`: bail on a duplicate
id, otherwise record the binding. -/
def buildIdMap (acc : List (Nat × IdObject)) :
    List (Nat × IdObject) → Except String (List (Nat × IdObject))
  | [] => .ok acc
  | (i, o) :: rest =>
    if (acc.lookup i).isSome then .error ("Duplicate id found: " ++ toString i)
    else buildIdMap (acc ++ [(i, o)]) rest

/-- `ProjectsData::get_id_map` (`project_data.rs` lines 79-108). -/
def get_id_map (d : ProjectsData) : Except String (List (Nat × IdObject)) :=
  buildIdMap [] (idSeq d)

/-- One reference check of `validate_project_references`: the id must map
to a `Project` in the id map. -/
def refOk (idMap : List (Nat × IdObject)) (i : Nat) : Bool :=
  match idMap.lookup i with
  | some IdObject.project => true
  | _ => false

/-- A link-list loop of `validate_project_references`: every link's
`project_id` must map to a `Project`. -/
def checkLinkRefs (idMap : List (Nat × IdObject)) (msg : String) :
    List ProjectLink → Except String Unit
  | [] => .ok ()
  | l :: rest =>
    if !(refOk idMap l.project_id) then
      .error (msg ++ toString l.project_id)
    else checkLinkRefs idMap msg rest

/-- The per-workspace loop of `validate_project_references`. -/
def checkWorkspaceRefs (idMap : List (Nat × IdObject)) : List Workspace → Except String Unit
  | [] => .ok ()
  | ws :: rest => do
    checkLinkRefs idMap "Workspace link refers to invalid project id: " ws.project_links
    checkWorkspaceRefs idMap rest

/-- The active-project check of `validate_project_references`. -/
def checkActiveRef (d : ProjectsData) (idMap : List (Nat × IdObject)) : Except String Unit :=
  match d.active_project_id with
  | some activeId =>
    if !(refOk idMap activeId) then
      .error ("Active project id does not refer to a valid project: " ++ toString activeId)
    else .ok ()
  | none => .ok ()

/-- The group-project-links check of `validate_project_references`. -/
def checkGroupRefs (d : ProjectsData) (idMap : List (Nat × IdObject)) : Except String Unit :=
  match d.group_project with
  | some g =>
    checkLinkRefs idMap "Group project link refers to invalid project id: " g.project_links
  | none => .ok ()

/-- `ProjectsData::validate_project_references` (`project_data.rs`
lines 110-134): active id, then group-project links, then per-workspace
links. -/
def validate_project_references (d : ProjectsData) (idMap : List (Nat × IdObject)) :
    Except String Unit := do
  checkActiveRef d idMap
  checkGroupRefs d idMap
  checkWorkspaceRefs idMap d.workspaces

/-- The workspace-name loop of `ProjectsData::validate` (`project_data.rs`
lines 140-149): duplicate check against the already-seen set, then the
blank check (`name.trim().is_empty()`), then record the name. -/
def checkNames (seen : List String) : List Workspace → Except String Unit
  | [] => .ok ()
  | ws :: rest =>
    if seen.contains ws.name then .error ("Duplicate workspace name found: " ++ ws.name)
    else if trimIsEmpty ws.name then .error ("Workspace name cannot be empty: " ++ toString ws.id)
    else checkNames (ws.name :: seen) rest

/-- `ProjectsData::validate` (`project_data.rs` lines 136-151). -/
def validate (reg : CompilerConfigurations) (d : ProjectsData) : Except String Unit := do
  validate_compilers reg d
  let idMap ← get_id_map d
  validate_project_references d idMap
  checkNames [] d.workspaces

/-- All project links of all containers: every workspace's links followed
by the group project's links (the order `can_find_any_links` and
`get_id_map` scan them). -/
def allLinks (d : ProjectsData) : List ProjectLink :=
  d.workspaces.flatMap (fun ws => ws.project_links)
  ++ (match d.group_project with
      | some g => g.project_links
      | none => [])

/-- All ids of a `ProjectsData` value, in `get_id_map` insertion order. -/
def allIds (d : ProjectsData) : List Nat := (idSeq d).map Prod.fst

/-- The ids in the flat project registry. -/
def projectIds (d : ProjectsData) : List Nat := d.projects.map (fun p => p.id)

end ProjectsData

open ProjectsData in
/-- Claim C1's right-hand side, phrased exactly as the claim words it:
ids globally unique, link targets in the flat project list, active id
resolves, workspace names non-empty ("" excluded) and pairwise distinct,
and every used compiler key in the registry. -/
def claimValidB (reg : CompilerConfigurations) (d : ProjectsData) : Bool :=
  decide (allIds d).Nodup
  && (allLinks d).all (fun l => (projectIds d).contains l.project_id)
  && (d.active_project_id.elim true (fun a => (projectIds d).contains a))
  && d.workspaces.all (fun ws => !(ws.name == ""))
  && decide (d.workspaces.map (fun ws => ws.name)).Nodup
  && d.workspaces.all (fun ws => compiler_exists reg ws.compiler_id)
  && compiler_exists reg d.group_project_compiler_id

open ProjectsData in
/-- The amended right-hand side: as `claimValidB` but workspace names
must be non-blank (non-empty after trimming whitespace), matching the
source's `name.trim().is_empty()` check. -/
def amendedValidB (reg : CompilerConfigurations) (d : ProjectsData) : Bool :=
  decide (allIds d).Nodup
  && (allLinks d).all (fun l => (projectIds d).contains l.project_id)
  && (d.active_project_id.elim true (fun a => (projectIds d).contains a))
  && d.workspaces.all (fun ws => !(trimIsEmpty ws.name))
  && decide (d.workspaces.map (fun ws => ws.name)).Nodup
  && d.workspaces.all (fun ws => compiler_exists reg ws.compiler_id)
  && compiler_exists reg d.group_project_compiler_id

instance {ε α : Type} [DecidableEq ε] [DecidableEq α] : DecidableEq (Except ε α) := by
  intro a b
  cases a <;> cases b
  case error.error e₁ e₂ =>
    exact match decEq e₁ e₂ with
    | isTrue h => isTrue (by rw [h])
    | isFalse h => isFalse (by intro hc; cases hc; exact h rfl)
  case error.ok e₁ a₂ => exact isFalse (by intro hc; cases hc)
  case ok.error a₁ e₂ => exact isFalse (by intro hc; cases hc)
  case ok.ok a₁ a₂ =>
    exact match decEq a₁ a₂ with
    | isTrue h => isTrue (by rw [h])
    | isFalse h => isFalse (by intro hc; cases hc; exact h rfl)

namespace ProjectsData

theorem checkWorkspaceCompilers_ok_iff (reg : CompilerConfigurations) (l : List Workspace) :
    checkWorkspaceCompilers reg l = .ok () ↔
      ∀ ws ∈ l, compiler_exists reg ws.compiler_id = true := by
  induction l with
  | nil => simp [checkWorkspaceCompilers]
  | cons ws rest ih =>
    simp only [checkWorkspaceCompilers]
    by_cases h : compiler_exists reg ws.compiler_id = true
    · simp [h, ih]
    · simp only [Bool.not_eq_true] at h
      simp [h]

theorem validate_compilers_ok_iff (reg : CompilerConfigurations) (d : ProjectsData) :
    validate_compilers reg d = .ok () ↔
      (∀ ws ∈ d.workspaces, compiler_exists reg ws.compiler_id = true) ∧
        compiler_exists reg d.group_project_compiler_id = true := by
  rw [← checkWorkspaceCompilers_ok_iff]
  simp only [validate_compilers, bind, Except.bind]
  cases hc : checkWorkspaceCompilers reg d.workspaces with
  | error e => simp [hc]
  | ok u =>
    cases u
    by_cases hg : compiler_exists reg d.group_project_compiler_id = true
    · simp [hg, pure, Except.pure]
    · simp only [Bool.not_eq_true] at hg
      simp [hg, throw, throwThe, MonadExceptOf.throw]

theorem lookup_eq_none_iff (l : List (Nat × IdObject)) (i : Nat) :
    l.lookup i = none ↔ i ∉ l.map Prod.fst := by
  induction l with
  | nil => simp
  | cons p rest ih =>
    obtain ⟨k, o⟩ := p
    by_cases h : i = k
    · subst h
      simp [List.lookup]
    · have hb : (i == k) = false := by simp [h]
      simp [List.lookup, hb, ih, h]

theorem lookup_eq_some_iff_mem {l : List (Nat × IdObject)}
    (nd : (l.map Prod.fst).Nodup) (i : Nat) (o : IdObject) :
    l.lookup i = some o ↔ (i, o) ∈ l := by
  induction l with
  | nil => simp
  | cons p rest ih =>
    obtain ⟨k, v⟩ := p
    simp only [List.map_cons, List.nodup_cons] at nd
    by_cases h : i = k
    · subst h
      simp only [List.lookup, beq_self_eq_true, List.mem_cons, Prod.mk.injEq, true_and]
      constructor
      · intro hv
        left
        cases hv
        rfl
      · intro hv
        rcases hv with hv | hv
        · rw [hv]
        · exact absurd (by exact List.mem_map_of_mem Prod.fst hv) nd.1
    · have hb : (i == k) = false := by simp [h]
      simp only [List.lookup, hb, List.mem_cons, Prod.mk.injEq]
      rw [ih nd.2]
      constructor
      · intro hm; right; exact hm
      · intro hm
        rcases hm with ⟨h1, _⟩ | hm
        · exact absurd h1 h
        · exact hm

theorem buildIdMap_ok_val (l : List (Nat × IdObject)) :
    ∀ acc m, buildIdMap acc l = .ok m → m = acc ++ l := by
  induction l with
  | nil =>
    intro acc m h
    simp only [buildIdMap] at h
    cases h
    simp
  | cons p rest ih =>
    intro acc m h
    obtain ⟨i, o⟩ := p
    simp only [buildIdMap] at h
    by_cases hl : (acc.lookup i).isSome
    · simp [hl] at h
    · simp only [hl, if_false, Bool.false_eq_true] at h
      have := ih (acc ++ [(i, o)]) m h
      simp [this]

theorem buildIdMap_isOk_iff (l : List (Nat × IdObject)) :
    ∀ acc, (buildIdMap acc l).isOk = true ↔
      ((l.map Prod.fst).Nodup ∧ ∀ i ∈ l.map Prod.fst, acc.lookup i = none) := by
  induction l with
  | nil =>
    intro acc
    simp [buildIdMap, Except.isOk, Except.toBool]
  | cons p rest ih =>
    intro acc
    obtain ⟨i, o⟩ := p
    simp only [buildIdMap]
    by_cases hl : (acc.lookup i).isSome
    · simp only [hl, if_true]
      constructor
      · intro hF
        simp [Except.isOk, Except.toBool] at hF
      · rintro ⟨-, hall⟩
        have := hall i (by simp)
        rw [this] at hl
        simp at hl
    · simp only [hl, if_false, Bool.false_eq_true]
      rw [ih (acc ++ [(i, o)])]
      have hnone : acc.lookup i = none := by
        cases h : acc.lookup i with
        | none => rfl
        | some v => rw [h] at hl; simp at hl
      simp only [List.map_cons, List.nodup_cons, List.mem_cons]
      constructor
      · rintro ⟨hnd, hall⟩
        refine ⟨⟨?_, hnd⟩, ?_⟩
        · intro hmem
          have := hall i hmem
          rw [lookup_eq_none_iff] at this
          simp at this
        · intro j hj
          rcases hj with hj | hj
          · subst hj; exact hnone
          · have := hall j hj
            rw [lookup_eq_none_iff] at this
            simp only [List.map_append, List.mem_append] at this
            rw [lookup_eq_none_iff]
            exact fun hm => this (Or.inl hm)
      · rintro ⟨⟨hni, hnd⟩, hall⟩
        refine ⟨hnd, ?_⟩
        intro j hj
        rw [lookup_eq_none_iff]
        simp only [List.map_append, List.mem_append, List.map_cons, List.map_nil,
          List.mem_singleton]
        rintro (hm | hm)
        · have := hall j (Or.inr hj)
          rw [lookup_eq_none_iff] at this
          exact this hm
        · subst hm
          exact hni hj

theorem get_id_map_isOk_iff (d : ProjectsData) :
    (get_id_map d).isOk = true ↔ (allIds d).Nodup := by
  rw [get_id_map, buildIdMap_isOk_iff]
  simp [allIds]

theorem get_id_map_ok_val {d : ProjectsData} {m : List (Nat × IdObject)}
    (h : get_id_map d = .ok m) : m = idSeq d := by
  have := buildIdMap_ok_val (idSeq d) [] m h
  simpa using this

/-- `(i, project)` pairs in the id sequence come exactly from the flat
project list. -/
theorem mem_idSeq_project_iff (d : ProjectsData) (i : Nat) :
    (i, IdObject.project) ∈ idSeq d ↔ i ∈ projectIds d := by
  cases hg : d.group_project with
  | none =>
    simp only [idSeq, hg, projectIds, List.mem_append, List.mem_flatMap, List.mem_cons,
      List.mem_map, Prod.mk.injEq, List.append_nil]
    simp [eq_comm]
  | some g =>
    simp only [idSeq, hg, projectIds, List.mem_append, List.mem_flatMap, List.mem_cons,
      List.mem_map, Prod.mk.injEq]
    simp [eq_comm]

theorem refOk_iff {d : ProjectsData} {m : List (Nat × IdObject)}
    (h : get_id_map d = .ok m) (nd : (allIds d).Nodup) (i : Nat) :
    refOk m i = true ↔ i ∈ projectIds d := by
  have hm := get_id_map_ok_val h
  subst hm
  rw [refOk]
  have hnd : ((idSeq d).map Prod.fst).Nodup := nd
  constructor
  · intro hr
    cases hl : (idSeq d).lookup i with
    | none => rw [hl] at hr; simp at hr
    | some o =>
      rw [hl] at hr
      cases o with
      | project =>
        rw [lookup_eq_some_iff_mem hnd] at hl
        exact (mem_idSeq_project_iff d i).mp hl
      | workspace => simp at hr
      | projectLink => simp at hr
  · intro hp
    have : (i, IdObject.project) ∈ idSeq d := (mem_idSeq_project_iff d i).mpr hp
    rw [← lookup_eq_some_iff_mem hnd] at this
    rw [this]

theorem checkLinkRefs_ok_iff (m : List (Nat × IdObject)) (msg : String)
    (links : List ProjectLink) :
    checkLinkRefs m msg links = .ok () ↔ ∀ l ∈ links, refOk m l.project_id = true := by
  induction links with
  | nil => simp [checkLinkRefs]
  | cons l rest ih =>
    simp only [checkLinkRefs]
    by_cases h : refOk m l.project_id = true
    · simp [h, ih]
    · simp only [Bool.not_eq_true] at h
      simp [h]

theorem checkWorkspaceRefs_ok_iff (m : List (Nat × IdObject)) (wss : List Workspace) :
    checkWorkspaceRefs m wss = .ok () ↔
      ∀ ws ∈ wss, ∀ l ∈ ws.project_links, refOk m l.project_id = true := by
  induction wss with
  | nil => simp [checkWorkspaceRefs]
  | cons ws rest ih =>
    simp only [checkWorkspaceRefs, bind, Except.bind]
    cases hc : checkLinkRefs m "Workspace link refers to invalid project id: " ws.project_links with
    | error e =>
      simp only []
      constructor
      · intro h; cases h
      · intro h
        have := (checkLinkRefs_ok_iff m "Workspace link refers to invalid project id: " ws.project_links).mpr (h ws (by simp))
        rw [this] at hc
        cases hc
    | ok u =>
      cases u
      rw [ih]
      have hl := (checkLinkRefs_ok_iff m "Workspace link refers to invalid project id: " ws.project_links).mp hc
      constructor
      · intro h
        intro w hw
        rcases List.mem_cons.mp hw with hw | hw
        · subst hw; exact hl
        · exact h w hw
      · intro h
        intro w hw
        exact h w (List.mem_cons_of_mem _ hw)

/-- Sequencing two unit-valued `Except` computations succeeds iff both
do. -/
theorem seq_ok_iff (x y : Except String Unit) :
    (do x; y) = .ok () ↔ (x = .ok () ∧ y = .ok ()) := by
  cases x with
  | error e =>
    simp only [bind, Except.bind]
    constructor
    · intro h; cases h
    · rintro ⟨h, -⟩; cases h
  | ok u =>
    cases u
    simp [bind, Except.bind]

theorem checkActiveRef_ok_iff (d : ProjectsData) (m : List (Nat × IdObject)) :
    checkActiveRef d m = .ok () ↔ ∀ a, d.active_project_id = some a → refOk m a = true := by
  cases ha : d.active_project_id with
  | none =>
    simp [checkActiveRef, ha]
  | some a =>
    simp only [checkActiveRef, ha]
    by_cases hr : refOk m a = true
    · simp only [hr, Bool.not_true, Bool.false_eq_true, if_false]
      constructor
      · intro _ a' ha'
        cases ha'
        exact hr
      · intro _
        trivial
    · simp only [Bool.not_eq_true] at hr
      simp only [hr, Bool.not_false, if_true]
      constructor
      · intro h; cases h
      · intro h
        have := h a rfl
        rw [hr] at this
        cases this

theorem checkGroupRefs_ok_iff (d : ProjectsData) (m : List (Nat × IdObject)) :
    checkGroupRefs d m = .ok () ↔
      ∀ g, d.group_project = some g → ∀ l ∈ g.project_links, refOk m l.project_id = true := by
  cases hg : d.group_project with
  | none => simp [checkGroupRefs, hg]
  | some g =>
    simp only [checkGroupRefs, hg]
    rw [checkLinkRefs_ok_iff]
    constructor
    · intro h g' hg'
      cases hg'
      exact h
    · intro h
      exact h g rfl

theorem validate_project_references_ok_iff (d : ProjectsData) (m : List (Nat × IdObject)) :
    validate_project_references d m = .ok () ↔
      (∀ a, d.active_project_id = some a → refOk m a = true) ∧
      (∀ g, d.group_project = some g → ∀ l ∈ g.project_links, refOk m l.project_id = true) ∧
      (∀ ws ∈ d.workspaces, ∀ l ∈ ws.project_links, refOk m l.project_id = true) := by
  unfold validate_project_references
  rw [seq_ok_iff, seq_ok_iff, checkActiveRef_ok_iff, checkGroupRefs_ok_iff,
    checkWorkspaceRefs_ok_iff]

theorem checkNames_ok_iff (l : List Workspace) :
    ∀ seen, checkNames seen l = .ok () ↔
      ((l.map (fun ws => ws.name)).Nodup ∧
        (∀ n ∈ l.map (fun ws => ws.name), n ∉ seen) ∧
        ∀ ws ∈ l, trimIsEmpty ws.name = false) := by
  induction l with
  | nil => intro seen; simp [checkNames]
  | cons ws rest ih =>
    intro seen
    simp only [checkNames]
    by_cases hs : seen.contains ws.name
    · simp only [hs, if_true]
      constructor
      · intro h; cases h
      · rintro ⟨-, h2, -⟩
        exact absurd (List.elem_iff.mp hs) (h2 ws.name (by simp))
    · rw [Bool.not_eq_true] at hs
      rw [if_neg (show ¬(seen.contains ws.name = true) by rw [hs]; exact Bool.false_ne_true)]
      rw [← Bool.not_eq_true] at hs
      by_cases ht : trimIsEmpty ws.name
      · simp only [ht, if_true]
        constructor
        · intro h; cases h
        · rintro ⟨-, -, h3⟩
          have := h3 ws (by simp)
          rw [ht] at this
          cases this
      · simp only [Bool.not_eq_true] at ht
        simp only [ht, Bool.false_eq_true, if_false]
        rw [ih (ws.name :: seen)]
        simp only [List.map_cons, List.nodup_cons, List.mem_cons]
        constructor
        · rintro ⟨hnd, hseen, htrim⟩
          refine ⟨⟨?_, hnd⟩, ?_, ?_⟩
          · intro hmem
            exact (hseen ws.name hmem) (by simp)
          · rintro n (hn | hn)
            · subst hn
              intro hc
              exact hs (List.elem_iff.mpr hc)
            · intro hc
              exact (hseen n hn) (by simp [hc])
          · rintro w (hw | hw)
            · subst hw; exact ht
            · exact htrim w hw
        · rintro ⟨⟨hni, hnd⟩, hseen, htrim⟩
          refine ⟨hnd, ?_, ?_⟩
          · intro n hn
            rintro (hc | hc)
            · subst hc; exact hni hn
            · exact (hseen n (Or.inr hn)) hc
          · intro w hw
            exact htrim w (Or.inr hw)

theorem get_id_map_eq_ok {d : ProjectsData} (h : (get_id_map d).isOk = true) :
    get_id_map d = .ok (idSeq d) := by
  cases him : get_id_map d with
  | error e => rw [him] at h; simp [Except.isOk, Except.toBool] at h
  | ok m =>
    have hv := get_id_map_ok_val him
    subst hv
    rfl

theorem validate_ok_iff (reg : CompilerConfigurations) (d : ProjectsData) :
    validate reg d = .ok () ↔
      (validate_compilers reg d = .ok () ∧ (get_id_map d).isOk = true ∧
       validate_project_references d (idSeq d) = .ok () ∧
       checkNames [] d.workspaces = .ok ()) := by
  unfold validate
  cases hvc : validate_compilers reg d with
  | error e =>
    simp only [bind, Except.bind]
    constructor
    · intro h; cases h
    · rintro ⟨h, -⟩; cases h
  | ok u =>
    cases u
    simp only [bind, Except.bind, true_and]
    cases him : get_id_map d with
    | error e =>
      simp only [Except.isOk, Except.toBool]
      constructor
      · intro h; cases h
      · rintro ⟨h, -⟩; cases h
    | ok m =>
      have hm := get_id_map_ok_val him
      subst hm
      simp only [Except.isOk, Except.toBool, true_and]
      cases hr : validate_project_references d (idSeq d) with
      | error e => simp
      | ok u => cases u; simp

theorem mem_allLinks_iff (d : ProjectsData) (l : ProjectLink) :
    l ∈ allLinks d ↔
      ((∃ ws ∈ d.workspaces, l ∈ ws.project_links) ∨
       (∃ g, d.group_project = some g ∧ l ∈ g.project_links)) := by
  cases hg : d.group_project with
  | none => simp [allLinks, hg]
  | some g => simp [allLinks, hg]

theorem amendedValidB_iff (reg : CompilerConfigurations) (d : ProjectsData) :
    amendedValidB reg d = true ↔
      ((allIds d).Nodup ∧
       (∀ l ∈ allLinks d, l.project_id ∈ projectIds d) ∧
       (∀ a, d.active_project_id = some a → a ∈ projectIds d) ∧
       (∀ ws ∈ d.workspaces, trimIsEmpty ws.name = false) ∧
       (d.workspaces.map (fun ws => ws.name)).Nodup ∧
       (∀ ws ∈ d.workspaces, compiler_exists reg ws.compiler_id = true) ∧
       compiler_exists reg d.group_project_compiler_id = true) := by
  unfold amendedValidB
  cases ha : d.active_project_id with
  | none =>
    simp only [ha, Option.elim, Bool.and_eq_true, decide_eq_true_eq, List.all_eq_true,
      Bool.not_eq_true', List.elem_iff]
    constructor
    · intro h
      tauto
    · intro h
      tauto
  | some a =>
    simp only [ha, Option.elim, Bool.and_eq_true, decide_eq_true_eq, List.all_eq_true,
      Bool.not_eq_true', List.elem_iff]
    constructor
    · intro h
      refine ⟨h.1.1.1.1.1.1, h.1.1.1.1.1.2, ?_, h.1.1.1.2, h.1.1.2, h.1.2, h.2⟩
      rintro a' ha'
      cases ha'
      exact h.1.1.1.1.2
    · intro h
      exact ⟨⟨⟨⟨⟨⟨h.1, h.2.1⟩, h.2.2.1 a rfl⟩, h.2.2.2.1⟩, h.2.2.2.2.1⟩,
        h.2.2.2.2.2.1⟩, h.2.2.2.2.2.2⟩

theorem refOk_idSeq_iff {d : ProjectsData} (nd : (allIds d).Nodup) (i : Nat) :
    refOk (idSeq d) i = true ↔ i ∈ projectIds d :=
  refOk_iff (get_id_map_eq_ok ((get_id_map_isOk_iff d).mpr nd)) nd i

end ProjectsData

open ProjectsData in
/-- C1 (amended): `validate()` succeeds if and only if all workspace,
project and project-link ids are globally unique, every link's referenced
project id exists in the flat project list, the active project id (if
set) refers to an existing project, all workspace names are non-blank
(non-empty after trimming whitespace) and pairwise distinct, and every
compiler key used anywhere (each workspace's key and the group-project
key) exists in the compiler-configuration registry. -/
theorem c1_validate_iff_amended (reg : CompilerConfigurations) (d : ProjectsData) :
    ProjectsData.validate reg d = .ok () ↔ amendedValidB reg d = true := by
  rw [validate_ok_iff, amendedValidB_iff, validate_compilers_ok_iff,
    get_id_map_isOk_iff, validate_project_references_ok_iff,
    checkNames_ok_iff d.workspaces []]
  constructor
  · rintro ⟨⟨hwc, hgc⟩, hnd, ⟨hact, hgrp, hws⟩, hnames, -, htrim⟩
    refine ⟨hnd, ?_, ?_, htrim, hnames, hwc, hgc⟩
    · intro l hl
      rcases (mem_allLinks_iff d l).mp hl with ⟨ws, hwsm, hlm⟩ | ⟨g, hgm, hlm⟩
      · exact (refOk_idSeq_iff hnd l.project_id).mp (hws ws hwsm l hlm)
      · exact (refOk_idSeq_iff hnd l.project_id).mp (hgrp g hgm l hlm)
    · intro a ha
      exact (refOk_idSeq_iff hnd a).mp (hact a ha)
  · rintro ⟨hnd, hlinks, hact, htrim, hnames, hwc, hgc⟩
    refine ⟨⟨hwc, hgc⟩, hnd, ⟨?_, ?_, ?_⟩, hnames, by simp, htrim⟩
    · intro a ha
      exact (refOk_idSeq_iff hnd a).mpr (hact a ha)
    · intro g hg l hl
      refine (refOk_idSeq_iff hnd l.project_id).mpr (hlinks l ?_)
      exact (mem_allLinks_iff d l).mpr (Or.inr ⟨g, hg, hl⟩)
    · intro ws hwsm l hl
      refine (refOk_idSeq_iff hnd l.project_id).mpr (hlinks l ?_)
      exact (mem_allLinks_iff d l).mpr (Or.inl ⟨ws, hwsm, hl⟩)

/-- A minimal registry containing only the default key "12.0". -/
def regFix : CompilerConfigurations :=
  ⟨[("12.0",
    { condition := "cond"
      product_name := "Delphi"
      product_version := 12
      package_version := 290
      compiler_version := 36
      installation_path := "C:/delphi"
      build_arguments := [] })]⟩

/-- A state whose only workspace is named with a single blank: the
claim's conditions (name non-empty, key present, no links) all hold, but
`validate` rejects it because the source checks `name.trim().is_empty()`. -/
def blankNameData : ProjectsData :=
  { id_counter := 1
    active_project_id := none
    workspaces := [{ id := 1, name := " ", compiler_id := "12.0",
                     project_links := [], sort_rank := 0 }]
    projects := []
    group_project := none
    group_project_compiler_id := "12.0" }

/-- C1 counterexample: at `blankNameData` every condition on the claim's
right-hand side holds (the workspace name " " is non-empty), yet
`validate` fails, refuting the claimed equivalence. -/
theorem c1_counterexample :
    claimValidB regFix blankNameData = true ∧
      ProjectsData.validate regFix blankNameData ≠ .ok () := by
  constructor
  · rfl
  · intro h
    rw [show ProjectsData.validate regFix blankNameData =
      Except.error ("Workspace name cannot be empty: " ++ toString 1) from rfl] at h
    cases h

namespace ProjectsData

/-- `ProjectsData::can_find_any_links` (`project_data.rs` lines 181-197):
scan every workspace's links, then the group project's. -/
def can_find_any_links (d : ProjectsData) (project_id : Nat) : Bool :=
  d.workspaces.any (fun ws => ws.project_links.any (fun l => l.project_id == project_id))
  || (match d.group_project with
      | some g => g.project_links.any (fun l => l.project_id == project_id)
      | none => false)

/-- `ProjectsData::remove_project` (`project_data.rs` lines 278-293). -/
def remove_project (d : ProjectsData) (project_id : Nat) (remove_links : Bool) : ProjectsData :=
  let projects := d.projects.filter (fun p => p.id != project_id)
  let active := if d.active_project_id == some project_id then none else d.active_project_id
  if remove_links then
    { d with
      projects := projects
      active_project_id := active
      workspaces := d.workspaces.map
        (fun ws => { ws with
          project_links := ws.project_links.filter (fun l => l.project_id != project_id) })
      group_project := d.group_project.map
        (fun g => { g with
          project_links := g.project_links.filter (fun l => l.project_id != project_id) }) }
  else
    { d with projects := projects, active_project_id := active }

/-- The workspace loop of `remove_project_link`: find the first workspace
holding a link with the id, erase that link (Rust: `position` +
`Vec::remove`, i.e. erase the first match) and report its project id. -/
def removeLinkWs (lid : Nat) : List Workspace → Option (List Workspace × Nat)
  | [] => none
  | ws :: rest =>
    match ws.project_links.find? (fun l => l.id == lid) with
    | some l =>
      some ({ ws with project_links := ws.project_links.eraseP (fun k => k.id == lid) } :: rest,
        l.project_id)
    | none =>
      (removeLinkWs lid rest).map (fun r => (ws :: r.1, r.2))

/-- `ProjectsData::remove_project_link` (`project_data.rs` lines
295-314): detach the link (workspaces first, then the group project) and
prune the referenced project if no link anywhere still references it. -/
def remove_project_link (d : ProjectsData) (project_link_id : Nat) : ProjectsData :=
  match removeLinkWs project_link_id d.workspaces with
  | some (wss, pid) =>
    let dmid : ProjectsData := { d with workspaces := wss }
    if !(dmid.can_find_any_links pid) then dmid.remove_project pid false else dmid
  | none =>
    match d.group_project with
    | some g =>
      match g.project_links.find? (fun l => l.id == project_link_id) with
      | some l =>
        let g2 : GroupProject :=
          { g with project_links := g.project_links.eraseP (fun k => k.id == project_link_id) }
        let dmid : ProjectsData := { d with group_project := some g2 }
        if !(dmid.can_find_any_links l.project_id) then dmid.remove_project l.project_id false
        else dmid
      | none => d
    | none => d

/-- `ProjectsData::get_workspace_id_containing_project_link`
(`project_data.rs` lines 359-366). -/
def get_workspace_id_containing_project_link (d : ProjectsData) (project_link_id : Nat) :
    Option Nat :=
  (d.workspaces.find? (fun ws => ws.project_links.any (fun l => l.id == project_link_id))).map
    (fun ws => ws.id)

/-- `ProjectsData::is_project_link_in_group_project` (`project_data.rs`
lines 368-375). -/
def is_project_link_in_group_project (d : ProjectsData) (project_link_id : Nat) : Bool :=
  match d.group_project with
  | some g => g.project_links.any (fun l => l.id == project_link_id)
  | none => false

end ProjectsData

/-! The `ProjectLinkContainer` trait operations (`mod.rs` lines 25-91),
acting on a container's link list. -/
namespace PLContainer

/-- `ProjectLinkContainer::index_of` (`mod.rs` lines 43-45). -/
def index_of (links : List ProjectLink) (project_link_id : Nat) : Option Nat :=
  links.findIdx? (fun l => l.id == project_link_id)

/-- `ProjectLinkContainer::new_project_link` (`mod.rs` lines 29-41):
append a link ranked strictly after the current last link. -/
def new_project_link (links : List ProjectLink) (id project_id : Nat) : List ProjectLink :=
  let last_rank := match links.getLast? with
    | some l => l.sort_rank
    | none => LexoRank.defaultRank
  links ++ [{ id := id, project_id := project_id, sort_rank := last_rank.next }]

/-- `ProjectLinkContainer::reorder_links` (`mod.rs` lines 87-90):
`LexoRank::apply` over the whole list in current order. -/
def reorder_links (links : List ProjectLink) : List ProjectLink :=
  links.mapIdx (fun i l => { l with sort_rank := LexoRank.applyRank i })

/-- `ProjectLinkContainer::export_project_link` (`mod.rs` lines 61-70):
remove and return the link with the given id (first occurrence). -/
def export_project_link (links : List ProjectLink) (project_link_id : Nat) :
    Except String (ProjectLink × List ProjectLink) :=
  match index_of links project_link_id with
  | none => .error "Project link not found in container"
  | some index =>
    match links[index]? with
    | none => .error "Source index out of bounds"
    | some l => .ok (l, links.eraseIdx index)

/-- `ProjectLinkContainer::import_project_link` (`mod.rs` lines 72-85):
insert before the drop link (or at the end), then rebalance all ranks. -/
def import_project_link (links : List ProjectLink) (link : ProjectLink)
    (drop_link_id : Option Nat) : Except String (List ProjectLink) :=
  let target_index? : Except String Nat :=
    match drop_link_id with
    | some i =>
      match index_of links i with
      | some idx => .ok idx
      | none => .error "Drop target link not found in container"
    | none => .ok links.length
  match target_index? with
  | .error e => .error e
  | .ok target_index =>
    if target_index > links.length then .error "Target index out of bounds"
    else .ok (reorder_links (links.insertIdx target_index link))

/-- `ProjectLinkContainer::move_project_link` (`mod.rs` lines 47-59):
resolve the target index (bounds check only), then export + import. -/
def move_project_link (links : List ProjectLink) (project_link_id : Nat)
    (drop_link_id : Option Nat) : Except String (List ProjectLink) :=
  let target_index? : Except String Nat :=
    match drop_link_id with
    | some i =>
      match index_of links i with
      | some idx => .ok idx
      | none => .error "Drop target link not found in container"
    | none => .ok links.length
  match target_index? with
  | .error e => .error e
  | .ok target_index =>
    if target_index > links.length then .error "Target index out of bounds"
    else
      match export_project_link links project_link_id with
      | .error e => .error e
      | .ok (link, links₁) => import_project_link links₁ link drop_link_id

end PLContainer

namespace ProjectsData

/-- Replace the first workspace with the given id (Rust mutates through
`iter_mut().find`). -/
def updateFirstWs (wid : Nat) (f : Workspace → Workspace) : List Workspace → List Workspace
  | [] => []
  | ws :: rest => if ws.id == wid then f ws :: rest else ws :: updateFirstWs wid f rest

/-- The outcome of `ProjectsData::move_project_link`: success, an
`anyhow` error, or the `todo!()` panic (`project_data.rs` line 355). -/
inductive MoveOutcome where
  | ok (d : ProjectsData)
  | err (msg : String)
  | panic (msg : String)
deriving DecidableEq, Repr

/-- `ProjectsData::move_project_link` (`project_data.rs` lines 316-357). -/
def move_project_link (d : ProjectsData) (project_link_id drop_target : Nat) : MoveOutcome :=
  match get_id_map d with
  | .error e => .err e
  | .ok idMap =>
    if (idMap.lookup drop_target).isNone then
      .err ("Drop target id not found: " ++ toString drop_target)
    else
      match idMap.lookup project_link_id with
      | some IdObject.projectLink =>
        let target_link_id : Option Nat :=
          match idMap.lookup drop_target with
          | some IdObject.projectLink => some drop_target
          | _ => none
        let source_workspace_id := d.get_workspace_id_containing_project_link project_link_id
        let target_workspace_id? : Except String (Option Nat) :=
          match idMap.lookup drop_target with
          | some IdObject.workspace => .ok (some drop_target)
          | some IdObject.projectLink =>
            .ok (d.get_workspace_id_containing_project_link drop_target)
          | _ => .error ("Invalid drop target with id " ++ toString drop_target)
        match target_workspace_id? with
        | .error e => .err e
        | .ok target_workspace_id =>
          match source_workspace_id with
          | some source_wid =>
            match target_workspace_id with
            | some target_wid =>
              match d.workspaces.find? (fun ws => ws.id == source_wid) with
              | none => .err "Unable to find source workspace"
              | some source_ws =>
                if target_wid == source_wid then
                  match PLContainer.move_project_link source_ws.project_links
                      project_link_id target_link_id with
                  | .error e => .err e
                  | .ok links' =>
                    .ok { d with workspaces :=
                      (updateFirstWs source_wid (fun ws => { ws with project_links := links' })
                        d.workspaces) }
                else
                  match PLContainer.export_project_link source_ws.project_links
                      project_link_id with
                  | .error e => .err e
                  | .ok (link, source_links') =>
                    let wss₁ := updateFirstWs source_wid
                      (fun ws => { ws with project_links := source_links' }) d.workspaces
                    match wss₁.find? (fun ws => ws.id == target_wid) with
                    | none => .err "Unable to find target workspace"
                    | some target_ws =>
                      match PLContainer.import_project_link target_ws.project_links link
                          target_link_id with
                      | .error e => .err e
                      | .ok target_links' =>
                        .ok { d with workspaces :=
                          (updateFirstWs target_wid
                            (fun ws => { ws with project_links := target_links' }) wss₁) }
            | none => .err "Cannot move project link from workspace to group project."
          | none =>
            match target_workspace_id with
            | some _ => .err "Cannot move project link from group project to workspace."
            | none => .panic "Move within group project on top of that element"
      | _ => .err ("Project link with id not found: " ++ toString project_link_id)

end ProjectsData

namespace ProjectsData

/-- The workspace-owned part of `allLinks`. -/
def wsLinks (d : ProjectsData) : List ProjectLink :=
  d.workspaces.flatMap (fun ws => ws.project_links)

/-- The group-project part of `allLinks`. -/
def gLinks (d : ProjectsData) : List ProjectLink :=
  match d.group_project with
  | some g => g.project_links
  | none => []

theorem allLinks_eq (d : ProjectsData) : allLinks d = wsLinks d ++ gLinks d := rfl

theorem can_find_any_links_eq (d : ProjectsData) (pid : Nat) :
    can_find_any_links d pid = (allLinks d).any (fun l => l.project_id == pid) := by
  cases hg : d.group_project with
  | none =>
    simp [can_find_any_links, allLinks, hg, List.any_append, List.any_flatMap]
  | some g =>
    simp [can_find_any_links, allLinks, hg, List.any_append, List.any_flatMap]

theorem nodupIds_inj {d : ProjectsData}
    (hnd : ((allLinks d).map (fun l => l.id)).Nodup) {k k' : ProjectLink}
    (hk : k ∈ allLinks d) (hk' : k' ∈ allLinks d) (h : k.id = k'.id) : k = k' :=
  List.inj_on_of_nodup_map hnd hk hk' h

theorem removeLinkWs_eq_none_iff (lid : Nat) (wss : List Workspace) :
    removeLinkWs lid wss = none ↔
      ∀ l ∈ wss.flatMap (fun ws => ws.project_links), (l.id == lid) = false := by
  induction wss with
  | nil => simp [removeLinkWs]
  | cons ws rest ih =>
    simp only [removeLinkWs]
    cases hf : ws.project_links.find? (fun l => l.id == lid) with
    | some l =>
      simp only [Option.map_none, List.flatMap_cons]
      constructor
      · intro h; cases h
      · intro h
        have hm := List.mem_of_find?_eq_some hf
        have hp := List.find?_some hf
        have := h l (by simp [hm])
        rw [hp] at this
        cases this
    | none =>
      have hnone := List.find?_eq_none.mp hf
      simp only [List.flatMap_cons]
      constructor
      · intro h
        cases hrec : removeLinkWs lid rest with
        | some r => rw [hrec] at h; cases h
        | none =>
          intro l hl
          rcases List.mem_append.mp hl with hl | hl
          · exact Bool.not_eq_true _ ▸ (by simpa using hnone l hl)
          · exact (ih.mp hrec) l hl
      · intro h
        have : removeLinkWs lid rest = none := by
          rw [ih]
          intro l hl
          exact h l (List.mem_append.mpr (Or.inr hl))
        rw [this]
        rfl

theorem removeLinkWs_some_spec (lid : Nat) (wss : List Workspace)
    (wss' : List Workspace) (pid : Nat)
    (h : removeLinkWs lid wss = some (wss', pid)) :
    wss'.flatMap (fun ws => ws.project_links)
      = (wss.flatMap (fun ws => ws.project_links)).eraseP (fun k => k.id == lid) ∧
    ∃ k ∈ wss.flatMap (fun ws => ws.project_links), k.id = lid ∧ k.project_id = pid := by
  induction wss generalizing wss' pid with
  | nil => cases h
  | cons ws rest ih =>
    simp only [removeLinkWs] at h
    cases hf : ws.project_links.find? (fun l => l.id == lid) with
    | some l =>
      rw [hf] at h
      cases h
      have hm := List.mem_of_find?_eq_some hf
      have hp := List.find?_some hf
      constructor
      · simp only [List.flatMap_cons]
        rw [@List.eraseP_append_left _ (fun k => k.id == lid) l hp _
          (rest.flatMap fun w => w.project_links) hm]
      · exact ⟨l, by simp [hm], by simpa using hp, rfl⟩
    | none =>
      rw [hf] at h
      cases hrec : removeLinkWs lid rest with
      | none => rw [hrec] at h; cases h
      | some r =>
        rw [hrec] at h
        obtain ⟨wss₂, pid₂⟩ := r
        simp only [Option.map_some] at h
        cases h
        obtain ⟨h1, k, hk, hkid, hkpid⟩ := ih wss₂ pid₂ hrec
        have hnone := List.find?_eq_none.mp hf
        constructor
        · simp only [List.flatMap_cons, h1]
          rw [List.eraseP_append_right]
          intro b hb
          exact hnone b hb
        · exact ⟨k, List.mem_append.mpr (Or.inr hk), hkid, hkpid⟩

theorem remove_project_false_projects (d : ProjectsData) (pid : Nat) :
    (remove_project d pid false).projects = d.projects.filter (fun p => p.id != pid) := rfl

theorem remove_project_link_spec (d : ProjectsData) (L : ProjectLink)
    (hL : L ∈ allLinks d)
    (hnd : ((allLinks d).map (fun l => l.id)).Nodup) :
    ∃ dmid : ProjectsData,
      allLinks dmid = (allLinks d).eraseP (fun k => k.id == L.id) ∧
      dmid.projects = d.projects ∧
      remove_project_link d L.id =
        (if !(dmid.can_find_any_links L.project_id) then
          dmid.remove_project L.project_id false
         else dmid) := by
  rw [allLinks_eq] at hL
  rcases List.mem_append.mp hL with hLws | hLg
  · -- the link lives in a workspace: `removeLinkWs` finds it
    cases hrem : removeLinkWs L.id d.workspaces with
    | none =>
      have := (removeLinkWs_eq_none_iff L.id d.workspaces).mp hrem L hLws
      simp at this
    | some r =>
      obtain ⟨wss', pid⟩ := r
      obtain ⟨hflat, k, hk, hkid, hkpid⟩ := removeLinkWs_some_spec L.id d.workspaces wss' pid hrem
      have hkL : k = L := nodupIds_inj hnd
        (allLinks_eq d ▸ List.mem_append.mpr (Or.inl hk))
        (allLinks_eq d ▸ hL) hkid
      have hpid : pid = L.project_id := by rw [← hkpid, hkL]
      subst hpid
      refine ⟨{ d with workspaces := wss' }, ?_, rfl, ?_⟩
      · show wss'.flatMap (fun ws => ws.project_links) ++ gLinks d = _
        rw [hflat, allLinks_eq]
        rw [@List.eraseP_append_left _ (fun k => k.id == L.id) L (by simp) _ (gLinks d) hLws]
        rfl
      · rw [remove_project_link, hrem]
  · -- the link lives in the group project
    have hg : ∃ g, d.group_project = some g ∧ L ∈ g.project_links := by
      rw [gLinks] at hLg
      cases hgp : d.group_project with
      | none => rw [hgp] at hLg; cases hLg
      | some g => rw [hgp] at hLg; exact ⟨g, rfl, hLg⟩
    obtain ⟨g, hgp, hLgl⟩ := hg
    have hnotws : ∀ l ∈ d.workspaces.flatMap (fun ws => ws.project_links),
        (l.id == L.id) = false := by
      intro l hl
      by_contra hc
      simp only [Bool.not_eq_false, beq_iff_eq] at hc
      have hlL : l = L := nodupIds_inj hnd
        (allLinks_eq d ▸ List.mem_append.mpr (Or.inl hl))
        (allLinks_eq d ▸ hL) hc
      subst hlL
      -- then the id occurs in both halves, contradicting nodup
      rw [allLinks_eq] at hnd
      rw [List.map_append, List.nodup_append] at hnd
      have hgl : l.id ∈ (gLinks d).map (fun x => x.id) := by
        rw [gLinks, hgp]
        exact List.mem_map_of_mem _ hLgl
      exact hnd.2.2 (List.mem_map_of_mem _ hl) hgl
    have hrem : removeLinkWs L.id d.workspaces = none :=
      (removeLinkWs_eq_none_iff L.id d.workspaces).mpr hnotws
    cases hf : g.project_links.find? (fun l => l.id == L.id) with
    | none =>
      have := List.find?_eq_none.mp hf L hLgl
      simp at this
    | some l₀ =>
      have hm := List.mem_of_find?_eq_some hf
      have hp := List.find?_some hf
      have hl₀ : l₀ = L := nodupIds_inj hnd
        (by rw [allLinks_eq]
            refine List.mem_append.mpr (Or.inr ?_)
            rw [gLinks, hgp]
            exact hm)
        (allLinks_eq d ▸ hL) (by simpa using hp)
      refine ⟨{ d with group_project := some (
        { g with project_links := g.project_links.eraseP (fun k => k.id == L.id) } : GroupProject) },
        ?_, rfl, ?_⟩
      · show wsLinks d ++ _ = _
        rw [allLinks_eq]
        rw [List.eraseP_append_right _ (by intro b hb; simpa using hnotws b hb)]
        congr 1
        show _ = (gLinks d).eraseP (fun k => k.id == L.id)
        rw [gLinks, hgp]
      · subst hl₀
        simp only [remove_project_link, hrem, hgp, hf]

end ProjectsData

open ProjectsData in
/-- C3: for a state with globally unique link ids, removing the last
remaining link referencing a project removes that project from the flat
registry (`projects` loses exactly that id), while removing a link whose
referenced project has at least one other link anywhere (any workspace or
the group project) leaves the flat registry untouched. -/
theorem c3_remove_link_prunes_iff_last (d : ProjectsData) (L : ProjectLink)
    (hL : L ∈ allLinks d)
    (hnd : ((allLinks d).map (fun l => l.id)).Nodup) :
    ((∀ k ∈ allLinks d, k.project_id = L.project_id → k = L) →
      (remove_project_link d L.id).projects
        = d.projects.filter (fun p => p.id != L.project_id)) ∧
    ((∃ k ∈ allLinks d, k ≠ L ∧ k.project_id = L.project_id) →
      (remove_project_link d L.id).projects = d.projects) := by
  obtain ⟨dmid, hlinks, hproj, heq⟩ := remove_project_link_spec d L hL hnd
  obtain ⟨a, l₁, l₂, hnl₁, hpa, hcat, her⟩ :=
    @List.exists_of_eraseP _ (fun k => k.id == L.id) (allLinks d) L hL (by simp)
  have haL : a = L := by
    refine nodupIds_inj hnd ?_ hL (by simpa using hpa)
    rw [hcat]
    simp
  subst haL
  have hLnotrest : ∀ k, k ∈ l₁ ++ l₂ → k ≠ a := by
    intro k hk hka
    subst hka
    rw [hcat, List.map_append, List.map_cons] at hnd
    rcases List.mem_append.mp hk with hk | hk
    · rw [List.nodup_append] at hnd
      exact hnd.2.2 (List.mem_map_of_mem _ hk) (by simp)
    · rw [List.nodup_append] at hnd
      have := hnd.2.1
      rw [List.nodup_cons] at this
      exact this.1 (List.mem_map_of_mem _ hk)
  have hmid : allLinks dmid = l₁ ++ l₂ := by rw [hlinks, her]
  constructor
  · intro hlast
    have hcf : dmid.can_find_any_links a.project_id = false := by
      rw [can_find_any_links_eq, hmid]
      rw [List.any_eq_false]
      intro k hk
      intro hkP
      rw [beq_iff_eq] at hkP
      have hkmem : k ∈ allLinks d := by
        rw [hcat]
        rcases List.mem_append.mp hk with hk | hk
        · simp [hk]
        · simp [hk]
      exact hLnotrest k hk (hlast k hkmem hkP)
    rw [heq, hcf]
    show (dmid.remove_project a.project_id false).projects = _
    rw [remove_project_false_projects, hproj]
  · rintro ⟨k, hk, hkne, hkP⟩
    have hcf : dmid.can_find_any_links a.project_id = true := by
      rw [can_find_any_links_eq, hmid]
      rw [List.any_eq_true]
      refine ⟨k, ?_, by simpa using hkP⟩
      rw [hcat] at hk
      rcases List.mem_append.mp hk with hk | hk
      · exact List.mem_append.mpr (Or.inl hk)
      · rcases List.mem_cons.mp hk with hk | hk
        · exact absurd hk hkne
        · exact List.mem_append.mpr (Or.inr hk)
    rw [heq, hcf]
    show dmid.projects = _
    exact hproj

/-- A two-workspace fixture: workspace 1 holds links 3 and 5, both
referencing project 2; workspace 4 holds link 6 referencing project 7. -/
def c3Data : ProjectsData :=
  { id_counter := 7
    active_project_id := none
    workspaces :=
      [{ id := 1, name := "W1", compiler_id := "12.0",
         project_links :=
           [{ id := 3, project_id := 2, sort_rank := 8 },
            { id := 5, project_id := 2, sort_rank := 16 }],
         sort_rank := 8 },
       { id := 4, name := "W2", compiler_id := "12.0",
         project_links := [{ id := 6, project_id := 7, sort_rank := 8 }],
         sort_rank := 16 }]
    projects :=
      [{ id := 2, name := "a", directory := "", dproj := some "a.dproj",
         dpr := none, dpk := none, exe := none, ini := none },
       { id := 7, name := "b", directory := "", dproj := some "b.dproj",
         dpr := none, dpk := none, exe := none, ini := none }]
    group_project := none
    group_project_compiler_id := "12.0" }

theorem c3_witness :
    (ProjectsData.remove_project_link c3Data 6).projects
        = c3Data.projects.filter (fun p => p.id != 7) ∧
      (ProjectsData.remove_project_link c3Data 3).projects = c3Data.projects := by
  constructor
  · exact (c3_remove_link_prunes_iff_last c3Data
      { id := 6, project_id := 7, sort_rank := 8 } (by decide) (by decide)).1 (by decide)
  · exact (c3_remove_link_prunes_iff_last c3Data
      { id := 3, project_id := 2, sort_rank := 8 } (by decide) (by decide)).2
      ⟨{ id := 5, project_id := 2, sort_rank := 16 }, by decide, by decide, rfl⟩

namespace ProjectsData

theorem mem_idSeq_of_wsLink (d : ProjectsData) {ws : Workspace} {l : ProjectLink}
    (hws : ws ∈ d.workspaces) (hl : l ∈ ws.project_links) :
    (l.id, IdObject.projectLink) ∈ idSeq d := by
  simp only [idSeq, List.mem_append]
  left; left
  simp only [List.mem_flatMap]
  exact ⟨ws, hws, by simp only [List.mem_cons, List.mem_map]; right; exact ⟨l, hl, rfl⟩⟩

theorem mem_idSeq_of_ws (d : ProjectsData) {ws : Workspace} (hws : ws ∈ d.workspaces) :
    (ws.id, IdObject.workspace) ∈ idSeq d := by
  simp only [idSeq, List.mem_append]
  left; left
  simp only [List.mem_flatMap]
  exact ⟨ws, hws, by simp⟩

theorem mem_idSeq_of_gLink (d : ProjectsData) {l : ProjectLink} (hl : l ∈ gLinks d) :
    (l.id, IdObject.projectLink) ∈ idSeq d := by
  simp only [idSeq, List.mem_append]
  left; right
  rw [gLinks] at hl
  cases hg : d.group_project with
  | none => rw [hg] at hl; cases hl
  | some g =>
    rw [hg] at hl
    simp only [List.mem_map]
    exact ⟨l, hl, rfl⟩

/-- `allIds` split into the workspace part, the group part and the
project part. -/
theorem allIds_decomp (d : ProjectsData) :
    allIds d =
      (d.workspaces.flatMap (fun ws => ws.id :: ws.project_links.map (fun l => l.id)))
      ++ (gLinks d).map (fun l => l.id) ++ projectIds d := by
  cases hg : d.group_project with
  | none =>
    simp [allIds, idSeq, gLinks, hg, projectIds, List.map_flatMap, Function.comp_def]
  | some g =>
    simp [allIds, idSeq, gLinks, hg, projectIds, List.map_flatMap, Function.comp_def]

/-- With globally unique ids, a link id occurring in the group project
occurs in no workspace. -/
theorem g_link_id_not_in_ws {d : ProjectsData} (hnd : (allIds d).Nodup)
    {lg : ProjectLink} (hg : lg ∈ gLinks d) :
    ∀ ws ∈ d.workspaces, ∀ l ∈ ws.project_links, (l.id == lg.id) = false := by
  intro ws hws l hl
  by_contra hc
  simp only [Bool.not_eq_false, beq_iff_eq] at hc
  rw [allIds_decomp] at hnd
  have hA : lg.id ∈ d.workspaces.flatMap
      (fun ws => ws.id :: ws.project_links.map (fun l => l.id)) := by
    simp only [List.mem_flatMap]
    exact ⟨ws, hws, by simp only [List.mem_cons, List.mem_map]; right; exact ⟨l, hl, hc⟩⟩
  have hB : lg.id ∈ (gLinks d).map (fun l => l.id) := List.mem_map_of_mem _ hg
  have hAB : ((d.workspaces.flatMap
      (fun ws => ws.id :: ws.project_links.map (fun l => l.id)))
      ++ (gLinks d).map (fun l => l.id)).Nodup :=
    hnd.sublist (List.sublist_append_left _ _)
  rw [List.nodup_append] at hAB
  exact hAB.2.2 hA hB

theorem get_ws_containing_eq_none_iff (d : ProjectsData) (lid : Nat) :
    get_workspace_id_containing_project_link d lid = none ↔
      ∀ ws ∈ d.workspaces, ∀ l ∈ ws.project_links, (l.id == lid) = false := by
  rw [get_workspace_id_containing_project_link, Option.map_eq_none', List.find?_eq_none]
  constructor
  · intro h ws hws l hl
    have hws2 := h ws hws
    rw [Bool.not_eq_true, List.any_eq_false] at hws2
    have h2 := hws2 l hl
    rwa [Bool.not_eq_true] at h2
  · intro h ws hws
    rw [Bool.not_eq_true, List.any_eq_false]
    intro l hl
    rw [h ws hws l hl]
    simp

theorem get_ws_containing_isSome (d : ProjectsData) (lid : Nat)
    (h : ∃ ws ∈ d.workspaces, ∃ l ∈ ws.project_links, l.id = lid) :
    ∃ wid, get_workspace_id_containing_project_link d lid = some wid := by
  obtain ⟨ws, hws, l, hl, hid⟩ := h
  have : (d.workspaces.find? (fun ws =>
      ws.project_links.any (fun l => l.id == lid))).isSome = true := by
    rw [List.find?_isSome]
    exact ⟨ws, hws, by rw [List.any_eq_true]; exact ⟨l, hl, by simp [hid]⟩⟩
  obtain ⟨w, hw⟩ := Option.isSome_iff_exists.mp this
  exact ⟨w.id, by rw [get_workspace_id_containing_project_link, hw]; rfl⟩

end ProjectsData

open ProjectsData in
/-- C4: for a state with globally unique ids, moving a link that lives in
the group project onto a drop target inside a workspace (either the
workspace itself or one of its links), or moving a link that lives in a
workspace onto a drop target inside the group project, always returns an
error (`MoveOutcome.err`), so the state — and in particular both
containers' link lists — is left unchanged. -/
theorem c4_cross_container_move_errs (d : ProjectsData) (lid did : Nat)
    (hnd : (allIds d).Nodup) :
    ((∃ lg ∈ gLinks d, lg.id = lid) →
     ((∃ ws ∈ d.workspaces, ws.id = did) ∨
      (∃ ws ∈ d.workspaces, ∃ l ∈ ws.project_links, l.id = did)) →
      ∃ e, ProjectsData.move_project_link d lid did = .err e) ∧
    ((∃ ws ∈ d.workspaces, ∃ l ∈ ws.project_links, l.id = lid) →
     (∃ lg ∈ gLinks d, lg.id = did) →
      ∃ e, ProjectsData.move_project_link d lid did = .err e) := by
  have him : get_id_map d = .ok (idSeq d) :=
    get_id_map_eq_ok ((get_id_map_isOk_iff d).mpr hnd)
  have hndseq : ((idSeq d).map Prod.fst).Nodup := hnd
  constructor
  · rintro ⟨lg, hlg, rfl⟩ htgt
    have hlookup_lid : (idSeq d).lookup lg.id = some IdObject.projectLink :=
      (lookup_eq_some_iff_mem hndseq _ _).mpr (mem_idSeq_of_gLink d hlg)
    have hsrc : get_workspace_id_containing_project_link d lg.id = none :=
      (get_ws_containing_eq_none_iff d lg.id).mpr (g_link_id_not_in_ws hnd hlg)
    rcases htgt with ⟨ws, hws, rfl⟩ | hwl
    · have hlookup_did : (idSeq d).lookup ws.id = some IdObject.workspace :=
        (lookup_eq_some_iff_mem hndseq _ _).mpr (mem_idSeq_of_ws d hws)
      refine ⟨"Cannot move project link from group project to workspace.", ?_⟩
      simp only [ProjectsData.move_project_link, him, hlookup_did, hlookup_lid, hsrc,
        Option.isNone_some, Bool.false_eq_true, if_false]
    · obtain ⟨ws, hws, l, hl, rfl⟩ := hwl
      have hlookup_did : (idSeq d).lookup l.id = some IdObject.projectLink :=
        (lookup_eq_some_iff_mem hndseq _ _).mpr (mem_idSeq_of_wsLink d hws hl)
      obtain ⟨wid, hwid⟩ := get_ws_containing_isSome d l.id ⟨ws, hws, l, hl, rfl⟩
      refine ⟨"Cannot move project link from group project to workspace.", ?_⟩
      simp only [ProjectsData.move_project_link, him, hlookup_did, hlookup_lid, hsrc, hwid,
        Option.isNone_some, Bool.false_eq_true, if_false]
  · rintro ⟨ws, hws, l, hl, rfl⟩ ⟨lg, hlg, rfl⟩
    have hlookup_lid : (idSeq d).lookup l.id = some IdObject.projectLink :=
      (lookup_eq_some_iff_mem hndseq _ _).mpr (mem_idSeq_of_wsLink d hws hl)
    have hlookup_did : (idSeq d).lookup lg.id = some IdObject.projectLink :=
      (lookup_eq_some_iff_mem hndseq _ _).mpr (mem_idSeq_of_gLink d hlg)
    obtain ⟨wid, hwid⟩ := get_ws_containing_isSome d l.id ⟨ws, hws, l, hl, rfl⟩
    have htgtnone : get_workspace_id_containing_project_link d lg.id = none :=
      (get_ws_containing_eq_none_iff d lg.id).mpr (g_link_id_not_in_ws hnd hlg)
    refine ⟨"Cannot move project link from workspace to group project.", ?_⟩
    simp only [ProjectsData.move_project_link, him, hlookup_did, hlookup_lid, hwid, htgtnone,
      Option.isNone_some, Bool.false_eq_true, if_false]

/-- The single workspace of the C4 fixture: link 3 referencing
project 2. -/
def c4Ws : Workspace :=
  { id := 1, name := "W1", compiler_id := "12.0",
    project_links := [{ id := 3, project_id := 2, sort_rank := 8 }],
    sort_rank := 8 }

/-- The group-project link of the C4 fixture. -/
def c4GLink : ProjectLink := { id := 6, project_id := 2, sort_rank := 8 }

/-- A fixture with one workspace (link 3 → project 2) and a group project
holding link 6 → project 2. -/
def c4Data : ProjectsData :=
  { id_counter := 6
    active_project_id := none
    workspaces := [c4Ws]
    projects :=
      [{ id := 2, name := "a", directory := "", dproj := some "a.dproj",
         dpr := none, dpk := none, exe := none, ini := none }]
    group_project := some
      { name := "G", path := "g.groupproj", compiler_id := "12.0",
        project_links := [c4GLink] }
    group_project_compiler_id := "12.0" }

theorem c4_witness :
    (∃ e, ProjectsData.move_project_link c4Data 6 1 = .err e) ∧
      (∃ e, ProjectsData.move_project_link c4Data 3 6 = .err e) := by
  constructor
  · exact (c4_cross_container_move_errs c4Data 6 1 (by decide)).1
      ⟨c4GLink, by decide, rfl⟩
      (Or.inl ⟨c4Ws, by decide, rfl⟩)
  · exact (c4_cross_container_move_errs c4Data 3 6 (by decide)).2
      ⟨c4Ws, by decide, { id := 3, project_id := 2, sort_rank := 8 }, by decide, rfl⟩
      ⟨c4GLink, by decide, rfl⟩

/-- `String::split`-style splitting of a character list at separator
characters (used to model `std::path::Path` component handling;
expressed on `List Char` so that proofs and `decide` can evaluate it). -/
def splitChars (p : Char → Bool) : List Char → List (List Char)
  | [] => [[]]
  | c :: rest =>
    let r := splitChars p rest
    if p c then [] :: r
    else
      match r with
      | [] => [[c]]
      | h :: t => (c :: h) :: t

/-- The components of a path (split at '/' and '\\', the separators
`std::path` recognises on Windows). -/
def pathComponents (p : String) : List String :=
  (splitChars (fun c => c == '/' || c == '\\') p.data).map (fun cs => ⟨cs⟩)

/-- `Path::file_name` as a string (last component). -/
def fileNameOf (p : String) : String :=
  (pathComponents p).getLast?.getD ""

/-- `Path::parent` as a string (all but the last component). -/
def parentOf (p : String) : String :=
  String.intercalate "/" (pathComponents p).dropLast

/-- `str::to_lowercase`, character-wise (kernel-reducible, unlike
`String.toLower`'s byte-position implementation). -/
def lowerString (s : String) : String := ⟨s.data.map Char.toLower⟩

/-- `Path::file_stem` and `Path::extension` of a file name: split at the
last '.', except a leading dot does not begin an extension. -/
def stemExt (name : String) : String × Option String :=
  let rev := name.data.reverse
  match rev.findIdx? (fun c => c == '.') with
  | none => (name, none)
  | some i =>
    if i = rev.length - 1 then (name, none)
    else (⟨(rev.drop (i + 1)).reverse⟩, some ⟨(rev.take i).reverse⟩)

namespace ProjectsData

/-- `ProjectsData::new_project` (`project_data.rs` lines 199-257):
classify the file by (lower-cased) extension, allocate a project id and
a link id, append the link — with the default rank — to the workspace,
and append the project to the flat registry. -/
def new_project (d : ProjectsData) (file_path : String) (workspace_id : Nat) :
    Except String ProjectsData :=
  let project_id := d.id_counter + 1
  let link_id := d.id_counter + 2
  match d.workspaces.find? (fun ws => ws.id == workspace_id) with
  | none => .error ("Workspace with id not found: " ++ toString workspace_id)
  | some _ =>
    let name := (stemExt (fileNameOf file_path)).1
    let directory := parentOf file_path
    let ext? := ((stemExt (fileNameOf file_path)).2).map lowerString
    let mk := fun (dproj dpr dpk : Option String) =>
      ({ id := project_id, name := name, directory := directory,
         dproj := dproj, dpr := dpr, dpk := dpk, exe := none, ini := none } : Project)
    let project? : Except String Project :=
      match ext? with
      | some e =>
        if e == "dproj" then .ok (mk (some file_path) none none)
        else if e == "dpr" then .ok (mk none (some file_path) none)
        else if e == "dpk" then .ok (mk none none (some file_path))
        else .error ("Unsupported project file type: " ++ file_path)
      | none => .error ("Unsupported project file type: " ++ file_path)
    match project? with
    | .error e => .error e
    | .ok project =>
      .ok { d with
        workspaces := updateFirstWs workspace_id (fun ws =>
          { ws with project_links := ws.project_links ++
            [{ id := link_id, project_id := project.id,
               sort_rank := LexoRank.defaultRank }] }) d.workspaces
        projects := d.projects ++ [project]
        id_counter := d.id_counter + 2 }

/-- `ProjectsData::add_project_link` (`project_data.rs` lines 260-276):
append a link — with the default rank — to the workspace. -/
def add_project_link (d : ProjectsData) (project_id workspace_id : Nat) :
    Except String ProjectsData :=
  match d.projects.find? (fun p => p.id == project_id) with
  | none => .error ("Project with id not found: " ++ toString project_id)
  | some _ =>
    let id := d.id_counter + 1
    match d.workspaces.find? (fun ws => ws.id == workspace_id) with
    | none => .error ("Workspace with id not found: " ++ toString workspace_id)
    | some _ =>
      .ok { d with
        workspaces := updateFirstWs workspace_id (fun ws =>
          { ws with project_links := ws.project_links ++
            [{ id := id, project_id := project_id,
               sort_rank := LexoRank.defaultRank }] }) d.workspaces
        id_counter := d.id_counter + 1 }

/-- `ProjectsData::new_workspace` (`project_data.rs` lines 441-454). -/
def new_workspace (reg : CompilerConfigurations) (d : ProjectsData)
    (name compiler : String) : Except String ProjectsData :=
  if !(compiler_exists reg compiler) then .error ("Compiler not found: " ++ compiler)
  else
    let workspace_id := d.id_counter + 1
    let lexo_rank := match d.workspaces.getLast? with
      | some last_ws => last_ws.sort_rank
      | none => LexoRank.defaultRank
    .ok { d with
      id_counter := d.id_counter + 1
      workspaces := d.workspaces ++
        [{ id := workspace_id, name := name, compiler_id := compiler,
           project_links := [], sort_rank := lexo_rank.next }] }

end ProjectsData

/-- No two sibling links (same workspace or the group project) carry
equal sort ranks. -/
def noEqualSiblingRanks (d : ProjectsData) : Bool :=
  d.workspaces.all (fun ws => decide (ws.project_links.map (fun l => l.sort_rank)).Nodup)
  && (match d.group_project with
      | some g => decide ((g.project_links.map (fun l => l.sort_rank)).Nodup)
      | none => true)

/-- Create a workspace and import two project files into it — each step
one of the state mutations the claim's sources cite. -/
def c5Step : Except String ProjectsData := do
  let d1 ← ProjectsData.new_workspace regFix ProjectsData.defaultData "W1" "12.0"
  let d2 ← ProjectsData.new_project d1 "a.dproj" 1
  ProjectsData.new_project d2 "b.dproj" 1

/-- C5 counterexample: after importing two projects into a fresh
workspace (no moves yet), the two sibling links both carry the default
rank, so they compare equal — the state is reachable yet two siblings
have equal sort ranks, refuting the claimed invariant. -/
theorem c5_counterexample : c5Step.map noEqualSiblingRanks = .ok false := by decide

namespace PLContainer

theorem reorder_links_ranks (links : List ProjectLink) :
    (reorder_links links).map (fun l => l.sort_rank)
      = (List.range links.length).map LexoRank.applyRank := by
  rw [reorder_links, List.mapIdx_eq_enum_map, List.map_map, ← List.enum_map_fst links,
    List.map_map]
  rfl

theorem reorder_links_pairwise (links : List ProjectLink) :
    ((reorder_links links).map (fun l => l.sort_rank)).Pairwise (· < ·) := by
  rw [reorder_links_ranks]
  refine List.Pairwise.map _ ?_ (List.pairwise_lt_range links.length)
  intro a b h
  exact LexoRank.applyRank_lt h

theorem import_ok_pairwise {links : List ProjectLink} {link : ProjectLink}
    {drop : Option Nat} {links' : List ProjectLink}
    (h : import_project_link links link drop = .ok links') :
    (links'.map (fun l => l.sort_rank)).Pairwise (· < ·) := by
  unfold import_project_link at h
  rcases drop with _ | i
  · simp only [gt_iff_lt, lt_irrefl, if_false] at h
    cases h
    exact reorder_links_pairwise _
  · simp only [] at h
    cases hidx : index_of links i with
    | none => rw [hidx] at h; cases h
    | some idx =>
      rw [hidx] at h
      dsimp only [] at h
      by_cases hgt : idx > links.length
      · rw [if_pos hgt] at h; cases h
      · rw [if_neg hgt] at h
        cases h
        exact reorder_links_pairwise _

end PLContainer

open PLContainer in
/-- C5 (amended): every successful `move_project_link` within a single
container rebalances all sibling ranks (`LexoRank::apply`), leaving them
strictly increasing — hence along any sequence of in-container moves no
two siblings compare equal at any state produced by a move.  (Freshly
added links, by contrast, all carry the default rank: see the
counterexample.) -/
theorem c5_move_ranks_strictly_increasing (links : List ProjectLink)
    (lid : Nat) (drop : Option Nat) (links' : List ProjectLink)
    (h : PLContainer.move_project_link links lid drop = .ok links') :
    (links'.map (fun l => l.sort_rank)).Pairwise (· < ·) := by
  unfold PLContainer.move_project_link at h
  rcases drop with _ | i
  · simp only [gt_iff_lt, lt_irrefl, if_false] at h
    cases hexp : export_project_link links lid with
    | error e => rw [hexp] at h; cases h
    | ok r =>
      rw [hexp] at h
      exact import_ok_pairwise h
  · simp only [] at h
    cases hidx : index_of links i with
    | none => rw [hidx] at h; cases h
    | some idx =>
      rw [hidx] at h
      dsimp only [] at h
      by_cases hgt : idx > links.length
      · rw [if_pos hgt] at h; cases h
      · rw [if_neg hgt] at h
        cases hexp : export_project_link links lid with
        | error e => rw [hexp] at h; cases h
        | ok r =>
          rw [hexp] at h
          exact import_ok_pairwise h

/-- The result of the concrete witness move. -/
def c5MovedLinks : List ProjectLink :=
  [{ id := 5, project_id := 4, sort_rank := 8 },
   { id := 3, project_id := 2, sort_rank := 16 }]

theorem c5_witness :
    PLContainer.move_project_link
        [{ id := 3, project_id := 2, sort_rank := 0 },
         { id := 5, project_id := 4, sort_rank := 0 }] 5 (some 3) = .ok c5MovedLinks ∧
      (c5MovedLinks.map (fun l => l.sort_rank)).Pairwise (· < ·) :=
  ⟨by decide,
   c5_move_ranks_strictly_increasing
     [{ id := 3, project_id := 2, sort_rank := 0 },
      { id := 5, project_id := 4, sort_rank := 0 }] 5 (some 3) c5MovedLinks (by decide)⟩

/-- The filesystem and collaborator environment threaded through the
operations that touch disk: path existence/directory checks, and the
(out-of-scope, spec §6) group-project manifest parser. -/
structure FsEnv where
  pathExists : String → Bool
  isDir : String → Bool
  parseGroupproj : String → Except String (List String)

/-- Modelled from the spec: `Project::discover_paths` lives in the
missing `project.rs`; per spec §4.3 it "re-derives the optional
associated file paths from disk given the project's directory and name".
Each of the five associated paths becomes `directory/name.ext` when that
file exists and is cleared otherwise. -/
def discover_paths (fs : FsEnv) (p : Project) : Project :=
  let base := p.directory ++ "/" ++ p.name
  let pick := fun (ext : String) =>
    let path := base ++ "." ++ ext
    if fs.pathExists path then some path else none
  { p with dproj := pick "dproj", dpr := pick "dpr", dpk := pick "dpk",
           exe := pick "exe", ini := pick "ini" }

/-- `WorkspaceUpdateData` (`changes.rs` lines 22-26). -/
structure WorkspaceUpdateData where
  name : Option String
  compiler : Option String
deriving DecidableEq, Repr

/-- `ProjectUpdateData` (`changes.rs` lines 28-37). -/
structure ProjectUpdateData where
  name : Option String
  directory : Option String
  dproj : Option String
  dpr : Option String
  dpk : Option String
  exe : Option String
  ini : Option String
deriving DecidableEq, Repr

/-- `PartialCompilerConfiguration` (`compiler_config.rs` lines 11-20). -/
structure PartialCompilerConfiguration where
  condition : Option String
  product_name : Option String
  product_version : Option Nat
  package_version : Option Nat
  compiler_version : Option Nat
  installation_path : Option String
  build_arguments : Option (List String)
deriving DecidableEq, Repr

/-- `CompilerConfiguration::update` (`compiler_config.rs` lines 33-57). -/
def CompilerConfiguration.update (c : CompilerConfiguration)
    (partial_ : PartialCompilerConfiguration) : CompilerConfiguration :=
  { condition := partial_.condition.getD c.condition
    product_name := partial_.product_name.getD c.product_name
    product_version := partial_.product_version.getD c.product_version
    package_version := partial_.package_version.getD c.package_version
    compiler_version := partial_.compiler_version.getD c.compiler_version
    installation_path := partial_.installation_path.getD c.installation_path
    build_arguments := partial_.build_arguments.getD c.build_arguments }

/-- `CompilerConfigurations::validate` (`compiler_config.rs` lines
138-165), with filesystem checks through `FsEnv`.  (`HashMap` iteration
order is unspecified; the association list's order is one
determinization.) -/
def regValidate (fs : FsEnv) : List (String × CompilerConfiguration) → Except String Unit
  | [] => .ok ()
  | (key, c) :: rest =>
    if trimIsEmpty key then .error "Compiler key cannot be empty."
    else if trimIsEmpty c.condition then .error ("Compiler condition cannot be empty for key: " ++ key)
    else if trimIsEmpty c.product_name then .error ("Compiler product name cannot be empty for key: " ++ key)
    else if trimIsEmpty c.installation_path then .error ("Compiler installation path cannot be empty for key: " ++ key)
    else if !(fs.pathExists c.installation_path) then .error ("Compiler installation path does not exist for key: " ++ key)
    else if !(fs.isDir c.installation_path) then .error ("Compiler installation path is not a directory for key: " ++ key)
    else if !(fs.pathExists (c.installation_path ++ "/bin/rsvars.bat")) then .error ("rsvars.bat not found in compiler installation path for key: " ++ key)
    else regValidate fs rest

namespace ProjectsData

/-- Replace the first project with the given id (Rust mutates through
`iter_mut().find`). -/
def updateFirstProject (pid : Nat) (f : Project → Project) : List Project → List Project
  | [] => []
  | p :: rest => if p.id == pid then f p :: rest else p :: updateFirstProject pid f rest

/-- `ProjectsData::refresh_project_paths` (`project_data.rs` lines
377-383). -/
def refresh_project_paths (fs : FsEnv) (d : ProjectsData) (project_id : Nat) :
    Except String ProjectsData :=
  match d.projects.find? (fun p => p.id == project_id) with
  | none => .error ("Project with id not found: " ++ toString project_id)
  | some _ =>
    .ok { d with projects := updateFirstProject project_id (discover_paths fs) d.projects }

/-- The field-by-field patch of `ProjectsData::update_project`
(`project_data.rs` lines 385-430): provided path fields must exist on
disk. -/
def applyProjectUpdate (fs : FsEnv) (p : Project) (u : ProjectUpdateData) :
    Except String Project := do
  let p := match u.name with
    | some n => { p with name := n }
    | none => p
  let p ← match u.directory with
    | some dir =>
      if !(fs.pathExists dir) then Except.error ("Directory does not exist: " ++ dir)
      else Except.ok { p with directory := dir }
    | none => Except.ok p
  let p ← match u.dproj with
    | some f =>
      if !(fs.pathExists f) then Except.error (".dproj file does not exist: " ++ f)
      else Except.ok { p with dproj := some f }
    | none => Except.ok p
  let p ← match u.dpr with
    | some f =>
      if !(fs.pathExists f) then Except.error (".dpr file does not exist: " ++ f)
      else Except.ok { p with dpr := some f }
    | none => Except.ok p
  let p ← match u.dpk with
    | some f =>
      if !(fs.pathExists f) then Except.error (".dpk file does not exist: " ++ f)
      else Except.ok { p with dpk := some f }
    | none => Except.ok p
  let p ← match u.exe with
    | some f =>
      if !(fs.pathExists f) then Except.error (".exe file does not exist: " ++ f)
      else Except.ok { p with exe := some f }
    | none => Except.ok p
  let p ← match u.ini with
    | some f =>
      if !(fs.pathExists f) then Except.error (".ini file does not exist: " ++ f)
      else Except.ok { p with ini := some f }
    | none => Except.ok p
  return p

/-- `ProjectsData::update_project` (`project_data.rs` lines 385-430). -/
def update_project (fs : FsEnv) (d : ProjectsData) (project_id : Nat)
    (data : ProjectUpdateData) : Except String ProjectsData :=
  match d.projects.find? (fun p => p.id == project_id) with
  | none => .error ("Project with id not found: " ++ toString project_id)
  | some p =>
    match applyProjectUpdate fs p data with
    | .error e => .error e
    | .ok p' =>
      .ok { d with projects := updateFirstProject project_id (fun _ => p') d.projects }

/-- `ProjectsData::select_project` (`project_data.rs` lines 432-439). -/
def select_project (d : ProjectsData) (project_id : Nat) : Except String ProjectsData :=
  match d.projects.find? (fun p => p.id == project_id) with
  | none => .error ("Project with id not found: " ++ toString project_id)
  | some p => .ok { d with active_project_id := some p.id }

/-- `ProjectsData::remove_workspace` (`project_data.rs` lines 456-469):
drop the workspace, then prune projects that lost their last link. -/
def remove_workspace (d : ProjectsData) (workspace_id : Nat) : ProjectsData :=
  let project_ids : List Nat :=
    ((d.workspaces.find? (fun ws => ws.id == workspace_id)).map
      (fun ws => ws.project_links.map (fun l => l.project_id))).getD []
  let d1 := { d with workspaces := d.workspaces.filter (fun ws => ws.id != workspace_id) }
  project_ids.foldl
    (fun acc pid =>
      if !(acc.can_find_any_links pid) then acc.remove_project pid false else acc)
    d1

/-- `LexoRank::apply` over the workspace list (`project_data.rs` lines
504-505). -/
def reorder_workspaces (wss : List Workspace) : List Workspace :=
  wss.mapIdx (fun i ws => { ws with sort_rank := LexoRank.applyRank i })

/-- `ProjectsData::move_workspace` (`project_data.rs` lines 471-507). -/
def move_workspace (d : ProjectsData) (workspace_id drop_target_id : Nat) :
    Except String ProjectsData :=
  match get_id_map d with
  | .error e => .error e
  | .ok idMap =>
    match idMap.lookup drop_target_id with
    | none => .error ("Drop target id not found: " ++ toString drop_target_id)
    | some IdObject.workspace =>
      match d.workspaces.findIdx? (fun ws => ws.id == workspace_id) with
      | none => .error "Unable to find workspace to move in list"
      | some workspace_index =>
        match d.workspaces[workspace_index]? with
        | none => .error "Unable to find workspace to move in list"
        | some ws =>
          let drop_index := d.workspaces.findIdx? (fun w => w.id == drop_target_id)
          let removed := d.workspaces.eraseIdx workspace_index
          let wss := match drop_index with
            | some di => removed.insertIdx di ws
            | none => removed ++ [ws]
          .ok { d with workspaces := reorder_workspaces wss }
    | some IdObject.projectLink =>
      match d.workspaces.findIdx? (fun ws => ws.id == workspace_id) with
      | none => .error "Unable to find workspace to move in list"
      | some workspace_index =>
        match d.workspaces[workspace_index]? with
        | none => .error "Unable to find workspace to move in list"
        | some ws =>
          let containing := d.get_workspace_id_containing_project_link drop_target_id
          let drop_index := match containing with
            | some cid => d.workspaces.findIdx? (fun w => w.id == cid)
            | none => none
          let removed := d.workspaces.eraseIdx workspace_index
          let wss := match drop_index with
            | some di => removed.insertIdx di ws
            | none => removed ++ [ws]
          .ok { d with workspaces := reorder_workspaces wss }
    | some IdObject.project =>
      .error ("Invalid drop target with id " ++ toString drop_target_id)

/-- `ProjectsData::update_workspace` (`project_data.rs` lines 509-524). -/
def update_workspace (reg : CompilerConfigurations) (d : ProjectsData)
    (workspace_id : Nat) (data : WorkspaceUpdateData) : Except String ProjectsData :=
  match d.workspaces.find? (fun ws => ws.id == workspace_id) with
  | none => .error ("Workspace with id not found: " ++ toString workspace_id)
  | some _ =>
    let nameUpd := fun (ws : Workspace) => match data.name with
      | some n => { ws with name := n }
      | none => ws
    match data.compiler with
    | some cid =>
      if !(compiler_exists reg cid) then .error ("Compiler not found: " ++ cid)
      else
        .ok { d with workspaces :=
          (updateFirstWs workspace_id
            (fun ws => { nameUpd ws with compiler_id := cid }) d.workspaces) }
    | none =>
      .ok { d with workspaces := updateFirstWs workspace_id nameUpd d.workspaces }

/-- The member loop of `GroupProject::fill` (`group_project.rs` lines
21-47): reuse a project matched by its descriptor path, otherwise create
one (with spec-modelled `discover_paths`); links are appended with
`new_project_link` (rank strictly after the last). -/
def fillGroup (fs : FsEnv) : List String → ProjectsData → List ProjectLink →
    (ProjectsData × List ProjectLink)
  | [], d, links => (d, links)
  | path :: rest, d, links =>
    match d.projects.find? (fun p => p.dproj == some path) with
    | some p =>
      fillGroup fs rest { d with id_counter := d.id_counter + 1 }
        (PLContainer.new_project_link links (d.id_counter + 1) p.id)
    | none =>
      let project_id := d.id_counter + 1
      let project := discover_paths fs
        { id := project_id
          name := (stemExt (fileNameOf path)).1
          directory := parentOf path
          dproj := some path, dpr := none, dpk := none, exe := none, ini := none }
      fillGroup fs rest
        { d with id_counter := d.id_counter + 2, projects := d.projects ++ [project] }
        (PLContainer.new_project_link links (d.id_counter + 2) project_id)

/-- `ProjectsData::set_group_project` (`project_data.rs` lines 526-539).
The `GroupProject` constructor in the source omits `compiler_id` (the
field used everywhere else is `group_project_compiler_id`); the model
fills it with the empty string. -/
def set_group_project (fs : FsEnv) (d : ProjectsData) (groupproj_path : String) :
    Except String ProjectsData :=
  if !(fs.pathExists groupproj_path) then
    .error ("Group project file does not exist: " ++ groupproj_path)
  else
    match fs.parseGroupproj groupproj_path with
    | .error e => .error e
    | .ok project_paths =>
      let r := fillGroup fs project_paths d []
      let g : GroupProject :=
        { name := (stemExt (fileNameOf groupproj_path)).1
          path := groupproj_path
          compiler_id := ""
          project_links := r.2 }
      .ok { r.1 with group_project := some g }

/-- `ProjectsData::remove_group_project` (`project_data.rs` lines
541-555). -/
def remove_group_project (d : ProjectsData) : ProjectsData :=
  let linked : List Nat :=
    d.workspaces.flatMap (fun ws => ws.project_links.map (fun l => l.project_id))
  let d1 := { d with
    group_project := none
    projects := d.projects.filter (fun p => linked.contains p.id) }
  match d1.active_project_id with
  | some a => if !(d1.can_find_any_links a) then { d1 with active_project_id := none } else d1
  | none => d1

end ProjectsData

/-- `Change` (`changes.rs` lines 39-59). -/
inductive Change where
  | newProject (file_path : String) (workspace_id : Nat)
  | addProject (project_id workspace_id : Nat)
  | removeProject (project_link_id : Nat)
  | moveProject (project_link_id drop_target : Nat)
  | refreshProject (project_id : Nat)
  | updateProject (project_id : Nat) (data : ProjectUpdateData)
  | selectProject (project_id : Nat)
  | addWorkspace (name compiler : String)
  | removeWorkspace (workspace_id : Nat)
  | moveWorkspace (workspace_id drop_target : Nat)
  | updateWorkspace (workspace_id : Nat) (data : WorkspaceUpdateData)
  | addCompiler (key : String) (config : CompilerConfiguration)
  | removeCompiler (compiler : String)
  | updateCompiler (key : String) (data : PartialCompilerConfiguration)
  | setGroupProject (groupproj_path : String)
  | removeGroupProject
  | setGroupProjectCompiler (compiler : String)
deriving DecidableEq, Repr

/-- What one executed change persisted: its `Result`, the projects file
written (if any), the compilers file written (if any), and whether the
process panicked (the `todo!()` in `move_project_link`). -/
structure ChangeResult where
  result : Except String Unit
  savedProjects : Option ProjectsData
  savedCompilers : Option CompilerConfigurations
  panicked : Bool
deriving DecidableEq, Repr

/-- A successful projects-file mutation: op applied, state saved. -/
def projectsOk (d : ProjectsData) : ChangeResult :=
  { result := .ok (), savedProjects := some d, savedCompilers := none, panicked := false }

/-- A failed mutation: nothing saved. -/
def changeErr (e : String) : ChangeResult :=
  { result := .error e, savedProjects := none, savedCompilers := none, panicked := false }

/-- Lift a fallible projects-file operation into the persist pipeline of
`changes.rs` (`FileLock::new` → op → `save`), which saves exactly when
the operation succeeds — no validation in between. -/
def persistProjects (r : Except String ProjectsData) : ChangeResult :=
  match r with
  | .ok d => projectsOk d
  | .error e => changeErr e

/-- `Change::execute` (`changes.rs` lines 61-248): each command loads the
relevant state file under the lock, applies the single operation and
saves on success.  None of the arms calls `validate`. -/
def Change.execute (fs : FsEnv) (reg : CompilerConfigurations) (d : ProjectsData) :
    Change → ChangeResult
  | .newProject file_path workspace_id => persistProjects (d.new_project file_path workspace_id)
  | .addProject project_id workspace_id =>
    persistProjects (d.add_project_link project_id workspace_id)
  | .removeProject project_link_id => projectsOk (d.remove_project_link project_link_id)
  | .moveProject project_link_id drop_target =>
    match d.move_project_link project_link_id drop_target with
    | .ok d' => projectsOk d'
    | .err e => changeErr e
    | .panic m =>
      { result := .error m, savedProjects := none, savedCompilers := none, panicked := true }
  | .refreshProject project_id => persistProjects (d.refresh_project_paths fs project_id)
  | .updateProject project_id data => persistProjects (d.update_project fs project_id data)
  | .selectProject project_id => persistProjects (d.select_project project_id)
  | .addWorkspace name compiler => persistProjects (d.new_workspace reg name compiler)
  | .removeWorkspace workspace_id => projectsOk (d.remove_workspace workspace_id)
  | .moveWorkspace workspace_id drop_target =>
    persistProjects (d.move_workspace workspace_id drop_target)
  | .updateWorkspace workspace_id data =>
    persistProjects (d.update_workspace reg workspace_id data)
  | .addCompiler key config =>
    { result := .ok (), savedProjects := none,
      savedCompilers := some (reg.insert key config), panicked := false }
  | .removeCompiler compiler =>
    if (reg.removeGet compiler).isNone then
      changeErr ("Unable to remove compiler - compiler not found: " ++ compiler)
    else
      { result := .ok (), savedProjects := none,
        savedCompilers := some (reg.removeMap compiler), panicked := false }
  | .updateCompiler key data =>
    match reg.get key with
    | some c =>
      { result := .ok (), savedProjects := none,
        savedCompilers := some (reg.insert key (c.update data)), panicked := false }
    | none => changeErr ("Unable to update compiler - compiler not found: " ++ key)
  | .setGroupProject groupproj_path => persistProjects (d.set_group_project fs groupproj_path)
  | .removeGroupProject => projectsOk d.remove_group_project
  | .setGroupProjectCompiler compiler =>
    if !(compiler_exists reg compiler) then
      changeErr ("Unable to set group project compiler - compiler not found: " ++ compiler)
    else projectsOk { d with group_project_compiler_id := compiler }

/-- The three request shapes accepted by `update` (`mod.rs` lines
93-119). -/
inductive UpdateRequest where
  | projectsData (d : ProjectsData)
  | changeSet (changes : List Change)
  | compilerConfigurations (c : CompilerConfigurations)

/-- What an `update` call persisted, in order. -/
structure UpdateResult where
  result : Except String Unit
  savedProjects : List ProjectsData
  savedCompilers : List CompilerConfigurations
deriving Repr

/-- `ChangeSet::execute` (`changes.rs` lines 12-20): changes run
sequentially against the current file contents; a failure stops the
batch but earlier saves stay persisted. -/
def runChangeSet (fs : FsEnv) : List Change → CompilerConfigurations → ProjectsData →
    UpdateResult
  | [], _, _ => { result := .ok (), savedProjects := [], savedCompilers := [] }
  | c :: rest, reg, d =>
    let r := c.execute fs reg d
    match r.result with
    | .error e =>
      { result := .error e
        savedProjects := r.savedProjects.toList
        savedCompilers := r.savedCompilers.toList }
    | .ok () =>
      let reg' := r.savedCompilers.getD reg
      let d' := r.savedProjects.getD d
      let rest' := runChangeSet fs rest reg' d'
      { result := rest'.result
        savedProjects := r.savedProjects.toList ++ rest'.savedProjects
        savedCompilers := r.savedCompilers.toList ++ rest'.savedCompilers }

/-- `update` (`mod.rs` lines 93-119): the whole-model replacement path
validates before saving; the change-set path delegates to
`Change::execute`; the compilers path validates the registry before
saving. -/
def update (fs : FsEnv) (reg : CompilerConfigurations) (d : ProjectsData) :
    UpdateRequest → UpdateResult
  | .projectsData dnew =>
    match ProjectsData.validate reg dnew with
    | .error e => { result := .error e, savedProjects := [], savedCompilers := [] }
    | .ok () => { result := .ok (), savedProjects := [dnew], savedCompilers := [] }
  | .changeSet changes => runChangeSet fs changes reg d
  | .compilerConfigurations cnew =>
    match regValidate fs cnew._compilers with
    | .error e => { result := .error e, savedProjects := [], savedCompilers := [] }
    | .ok () => { result := .ok (), savedProjects := [], savedCompilers := [cnew] }

/-- An environment on which every filesystem probe fails. -/
def fsNone : FsEnv :=
  { pathExists := fun _ => false
    isDir := fun _ => false
    parseGroupproj := fun _ => .error "no manifest parser" }

/-- The empty compiler registry (reachable: `RemoveCompiler` may remove
any key). -/
def regEmpty : CompilerConfigurations := ⟨[]⟩

/-- A state that references compiler key "12.0"; against `regEmpty` it
fails validation. -/
def c2Data : ProjectsData :=
  { id_counter := 3
    active_project_id := none
    workspaces :=
      [{ id := 1, name := "W", compiler_id := "12.0",
         project_links := [{ id := 3, project_id := 2, sort_rank := 8 }],
         sort_rank := 8 }]
    projects :=
      [{ id := 2, name := "a", directory := "", dproj := some "a.dproj",
         dpr := none, dpk := none, exe := none, ini := none }]
    group_project := none
    group_project_compiler_id := "12.0" }

/-- C2 counterexample: the change-application layer persists a mutation
(`SelectProject`) whose resulting model fails `validate()` — no
validation runs between mutating and saving in `Change::execute`. -/
theorem c2_counterexample :
    ((Change.selectProject 2).execute fsNone regEmpty c2Data).savedProjects
        = some { c2Data with active_project_id := some 2 } ∧
      ProjectsData.validate regEmpty { c2Data with active_project_id := some 2 }
        ≠ .ok () := by
  constructor
  · rfl
  · decide

/-- C2 (amended): only the whole-model replacement path of `update`
validates before persisting — any projects file it writes passes
`validate()`; the per-command change layer (see the counterexample)
persists the mutated model without re-validating. -/
theorem c2_replacement_path_validates (fs : FsEnv) (reg : CompilerConfigurations)
    (d dnew d' : ProjectsData)
    (h : d' ∈ (update fs reg d (UpdateRequest.projectsData dnew)).savedProjects) :
    ProjectsData.validate reg d' = .ok () := by
  unfold update at h
  dsimp only [] at h
  cases hv : ProjectsData.validate reg dnew with
  | error e =>
    rw [hv] at h
    simp at h
  | ok u =>
    cases u
    rw [hv] at h
    simp at h
    subst h
    exact hv

theorem c2_witness :
    ProjectsData.validate regFix ProjectsData.defaultData = .ok () :=
  c2_replacement_path_validates fsNone regFix ProjectsData.defaultData
    ProjectsData.defaultData ProjectsData.defaultData (by decide)

/-- Modelled from the spec: `Project::get_project_file` lives in the
missing `project.rs`; per spec §3/§6 the compile target is the project's
descriptor file — the first of the associated dproj/dpr/dpk paths, an
error when the project has none. -/
def Project.get_project_file (p : Project) : Except String String :=
  match p.dproj with
  | some f => .ok f
  | none =>
    match p.dpr with
    | some f => .ok f
    | none =>
      match p.dpk with
      | some f => .ok f
      | none => .error ("No project file for project: " ++ p.name)

/-- `ProjectsData::group_projects_compiler` (`project_data.rs` lines
52-65): look the group key up in the registry, fall back to "12.0", and
`.expect`-panic when neither exists.  The panic is modelled as `none`. -/
def ProjectsData.group_projects_compiler (compilers : CompilerConfigurations)
    (d : ProjectsData) : Option CompilerConfiguration :=
  match compilers.get d.group_project_compiler_id with
  | some c => some c
  | none => compilers.get "12.0"

/-- The environment of one compile invocation: the externally-written
cancellation flag's value as observed at the check before the i-th
target, whether `rsvars.bat` exists when the i-th target is reached, and
the outcome of the i-th spawned process (spawn error, or exit
success/code). -/
structure CompileEnv where
  cancelBefore : Nat → Bool
  rsvarsExists : Nat → Bool
  spawnResult : Nat → Except String (Bool × Int)

/-- The process-global atomics of `compiler.rs` (lines 18-21):
`ACTIVE`, `SUCCESS`, `CODE`, `CANCEL_COMPILATION`. -/
structure CompilerGlobals where
  active : Bool
  success : Bool
  code : Int
  cancel : Bool
deriving DecidableEq, Repr

/-- The progress events the engine emits (`CompilerProgress`); stream
lines are not modelled. -/
inductive CompileEvent where
  | start
  | singleProjectCompleted (projectId : Nat) (success : Bool) (code : Int)
  | completed (success : Bool) (code : Int)
deriving DecidableEq, Repr

/-- The outcome of `do_compile` / `compile`: final globals, the loop
indices of the targets whose process was spawned (in order), the events
emitted, and the returned `Result`. -/
structure CompileRun where
  globals : CompilerGlobals
  spawned : List Nat
  events : List CompileEvent
  result : Except String Unit
deriving DecidableEq, Repr

/-- The per-target loop of `Compiler::do_compile` (`compiler.rs` lines
386-515), indexed by the absolute target position `i`: poll the
cancellation flag; build the per-project footer (needs the project
file); from then on a deferred per-project completion event fires at
iteration end when the request was single-target; check `rsvars.bat`;
spawn; store the exit outcome into the globals. -/
def doCompileLoop (env : CompileEnv) (single : Bool) :
    List Project → Nat → CompilerGlobals → CompileRun
  | [], _, g => { globals := g, spawned := [], events := [], result := .ok () }
  | project :: rest, i, g =>
    let g := { g with cancel := env.cancelBefore i }
    if g.cancel then
      { globals := { g with success := false, code := -1 }
        spawned := [], events := []
        result := .error "Compilation cancelled by user." }
    else
      match project.get_project_file with
      | .error e => { globals := g, spawned := [], events := [], result := .error e }
      | .ok _ =>
        let deferEvents := fun (g' : CompilerGlobals) =>
          if single then [CompileEvent.singleProjectCompleted project.id g'.success g'.code]
          else []
        if !(env.rsvarsExists i) then
          { globals := g, spawned := [], events := deferEvents g
            result := .error "Cannot find rsvars.bat" }
        else
          match env.spawnResult i with
          | .error e =>
            { globals := g, spawned := [], events := deferEvents g, result := .error e }
          | .ok sc =>
            let g' := { g with success := sc.1, code := sc.2 }
            let r := doCompileLoop env single rest (i + 1) g'
            { globals := r.globals
              spawned := i :: r.spawned
              events := deferEvents g' ++ r.events
              result := r.result }

/-- `Compiler::get_all_workspace_parameters` (`compiler.rs` lines
119-163), restricted to what the engine claims need: the ordered target
projects (any unresolvable id aborts) and the `single` flag (false). -/
def get_all_workspace_parameters (d : ProjectsData) (workspace_id : Nat) :
    Except String (List Project × Bool) :=
  match d.workspaces.find? (fun ws => ws.id == workspace_id) with
  | none => .error ("Workspace with id not found: " ++ toString workspace_id)
  | some ws =>
    (ws.project_links.mapM (fun (link : ProjectLink) =>
      match d.projects.find? (fun (p : Project) => p.id == link.project_id) with
      | some p => (Except.ok p : Except String Project)
      | none =>
        Except.error ("Project with id not found: " ++ toString link.project_id))).map
      (fun ps => (ps, false))

/-- `Compiler::compile` (`compiler.rs` lines 335-367): reject a second
concurrent invocation; `defer!` clears `ACTIVE` on every exit path;
resolve, emit the start banner, run `do_compile`, and — only when
`do_compile` returned `Ok` (the `?` operator) — run `finish`
(lines 374-384), which clears `CANCEL_COMPILATION` and emits the
completion event. -/
def Compiler.compile (env : CompileEnv) (g0 : CompilerGlobals)
    (resolved : Except String (List Project × Bool)) : CompileRun :=
  if g0.active then
    { globals := g0, spawned := [], events := []
      result := .error "Another compilation is already in progress. Please wait until it finishes." }
  else
    let g1 := { g0 with active := true }
    match resolved with
    | .error e => { globals := { g1 with active := false }, spawned := [], events := []
                    result := .error e }
    | .ok ps =>
      let r := doCompileLoop env ps.2 ps.1 0 g1
      match r.result with
      | .error e =>
        { globals := { r.globals with active := false }
          spawned := r.spawned
          events := CompileEvent.start :: r.events
          result := .error e }
      | .ok () =>
        let g3 := { r.globals with cancel := false }
        { globals := { g3 with active := false }
          spawned := r.spawned
          events := CompileEvent.start :: r.events
            ++ [CompileEvent.completed g3.success g3.code]
          result := .ok () }

/-- The initial value of the process globals. -/
def compileG0 : CompilerGlobals :=
  { active := false, success := false, code := -1, cancel := false }

def c6P1 : Project :=
  { id := 2, name := "p1", directory := "", dproj := some "p1.dproj",
    dpr := none, dpk := none, exe := none, ini := none }

def c6P2 : Project :=
  { id := 4, name := "p2", directory := "", dproj := some "p2.dproj",
    dpr := none, dpk := none, exe := none, ini := none }

/-- Workspace 1 holding projects [P1, P2]. -/
def c6Data : ProjectsData :=
  { id_counter := 5
    active_project_id := none
    workspaces :=
      [{ id := 1, name := "W", compiler_id := "12.0",
         project_links :=
           [{ id := 3, project_id := 2, sort_rank := 8 },
            { id := 5, project_id := 4, sort_rank := 16 }],
         sort_rank := 8 }]
    projects := [c6P1, c6P2]
    group_project := none
    group_project_compiler_id := "12.0" }

/-- Cancellation is raised after P1's process finishes and before P2
starts: the flag reads false at the check before target 0 and true at
the check before target 1. -/
def c6Env : CompileEnv :=
  { cancelBefore := fun i => decide (1 ≤ i)
    rsvarsExists := fun _ => true
    spawnResult := fun _ => .ok (true, 0) }

/-- The compile invocation of the C6 scenario. -/
def c6Run : CompileRun :=
  Compiler.compile c6Env compileG0 (get_all_workspace_parameters c6Data 1)

/-- Recognise the invocation's completion event. -/
def isCompletedEvent : CompileEvent → Bool
  | .completed _ _ => true
  | _ => false

/-- C6 at the failing input: with cancellation raised between P1 and P2,
P2's process is never spawned and the success flag is set to failure,
but — because `compile` propagates `do_compile`'s error with `?`,
skipping `finish` — NO completion event is emitted, contradicting the
claim that the completion event is emitted and reports failure. -/
theorem c6_cancel_skips_completion_event :
    c6Run.spawned = [0] ∧
      c6Run.events.filter isCompletedEvent = [] ∧
      c6Run.globals.success = false ∧
      c6Run.result = .error "Compilation cancelled by user." := by
  decide

/-- A run of the same workspace in which cancellation never arrives. -/
def c7RunOk : CompileRun :=
  Compiler.compile
    { cancelBefore := fun _ => false
      rsvarsExists := fun _ => true
      spawnResult := fun _ => .ok (true, 0) }
    compileG0 (get_all_workspace_parameters c6Data 1)

/-- The cancelled invocation of the C7 failing input (same scenario as
C6). -/
def c7Run : CompileRun :=
  Compiler.compile c6Env compileG0 (get_all_workspace_parameters c6Data 1)

/-- C7 at the failing input: a cancelled invocation ends (returns its
error) with `CANCEL_COMPILATION` still set — the only store of `false`
is in `finish`, which the `?` on `do_compile` skips — while an
invocation that runs to completion does clear it. -/
theorem c7_cancel_flag_not_cleared :
    c7Run.result = .error "Compilation cancelled by user." ∧
      c7Run.globals.cancel = true ∧
      c7RunOk.globals.cancel = false := by
  decide

/-- If `rsvars.bat` is missing when target `k` is reached, no target at
position `k` or later is ever spawned, whatever the start index at or
before `k`. -/
theorem doCompileLoop_rsvars_blocks (env : CompileEnv) (single : Bool) (k : Nat)
    (hk : env.rsvarsExists k = false) :
    ∀ (projects : List Project) (i : Nat) (g : CompilerGlobals) (j : Nat),
      i ≤ k → k ≤ j → j ∉ (doCompileLoop env single projects i g).spawned := by
  intro projects
  induction projects with
  | nil =>
    intro i g j _ _
    simp [doCompileLoop]
  | cons p rest ih =>
    intro i g j hik hkj
    simp only [doCompileLoop]
    cases hc : env.cancelBefore i with
    | true => simp
    | false =>
      simp only [Bool.false_eq_true, if_false]
      cases hf : p.get_project_file with
      | error e => simp
      | ok f =>
        simp only []
        cases hr : env.rsvarsExists i with
        | false => simp
        | true =>
          simp only [Bool.not_true, Bool.false_eq_true, if_false]
          cases hs : env.spawnResult i with
          | error e => simp
          | ok sc =>
            simp only [List.mem_cons]
            rintro (hj | hj)
            · have hik2 : i ≠ k := fun h2 => by rw [h2, hk] at hr; cases hr
              omega
            · have hik2 : i + 1 ≤ k := by
                have : i ≠ k := fun hik2 => by rw [hik2, hk] at hr; cases hr
                omega
              exact ih (i + 1) _ j hik2 hkj hj

/-- C8: when the configured installation's `rsvars.bat` is missing at
the moment target `k` is reached, the engine aborts before spawning that
target's process and no process is spawned for it nor for any later
target; for a single-target request this aborts the whole invocation
with an error. -/
theorem c8_missing_rsvars_aborts (env : CompileEnv) (single : Bool)
    (projects : List Project) (g : CompilerGlobals) (k : Nat)
    (hk : env.rsvarsExists k = false) :
    (∀ j, k ≤ j → j ∉ (doCompileLoop env single projects 0 g).spawned) ∧
    (∀ p : Project, k = 0 →
      ∃ e, (Compiler.compile env g (.ok ([p], true))).result = .error e) := by
  constructor
  · intro j hkj
    exact doCompileLoop_rsvars_blocks env single k hk projects 0 g j (Nat.zero_le k) hkj
  · intro p hk0
    subst hk0
    unfold Compiler.compile
    cases ha : g.active with
    | true =>
      exact ⟨"Another compilation is already in progress. Please wait until it finishes.",
        by simp [ha]⟩
    | false =>
      simp only [ha, Bool.false_eq_true, if_false]
      simp only [doCompileLoop]
      cases hc : env.cancelBefore 0 with
      | true => exact ⟨"Compilation cancelled by user.", by simp⟩
      | false =>
        simp only [Bool.false_eq_true, if_false]
        cases hf : p.get_project_file with
        | error e => exact ⟨e, by simp⟩
        | ok f =>
          simp only [hk, Bool.not_false, if_true]
          exact ⟨"Cannot find rsvars.bat", by simp⟩

/-- An environment whose build-tool installation has no `rsvars.bat`. -/
def c8Env : CompileEnv :=
  { cancelBefore := fun _ => false
    rsvarsExists := fun _ => false
    spawnResult := fun _ => .ok (true, 0) }

theorem c8_witness :
    (0 ∉ (doCompileLoop c8Env false [c6P1, c6P2] 0 compileG0).spawned) ∧
      (∃ e, (Compiler.compile c8Env compileG0 (.ok ([c6P1], true))).result = .error e) :=
  ⟨(c8_missing_rsvars_aborts c8Env false [c6P1, c6P2] compileG0 0 rfl).1 0 (Nat.le_refl 0),
   (c8_missing_rsvars_aborts c8Env true [c6P1] compileG0 0 rfl).2 c6P1 rfl⟩

/-- C10: when the registry contains neither the group-project's
configured key nor the fallback key "12.0", `group_projects_compiler`
panics (the `.expect` — modelled as `none`) instead of returning an
error. -/
theorem c10_group_compiler_panics (compilers : CompilerConfigurations) (d : ProjectsData)
    (h1 : compilers.contains_key d.group_project_compiler_id = false)
    (h2 : compilers.contains_key "12.0" = false) :
    ProjectsData.group_projects_compiler compilers d = none := by
  unfold ProjectsData.group_projects_compiler
  have h1' : compilers.get d.group_project_compiler_id = none := by
    unfold CompilerConfigurations.contains_key at h1
    unfold CompilerConfigurations.get
    cases hl : compilers._compilers.lookup d.group_project_compiler_id with
    | none => rfl
    | some c => rw [hl] at h1; cases h1
  have h2' : compilers.get "12.0" = none := by
    unfold CompilerConfigurations.contains_key at h2
    unfold CompilerConfigurations.get
    cases hl : compilers._compilers.lookup "12.0" with
    | none => rfl
    | some c => rw [hl] at h2; cases h2
  rw [h1', h2']

/-- C10 witness, including reachability: `RemoveCompiler` happily
removes the fallback key "12.0", and on the resulting registry the
lookup chain of `group_projects_compiler` ends in the panicking
`.expect`. -/
theorem c10_witness :
    ((Change.removeCompiler "12.0").execute fsNone regFix
        ProjectsData.defaultData).savedCompilers
      = some (regFix.removeMap "12.0") ∧
    ProjectsData.group_projects_compiler (regFix.removeMap "12.0")
        ProjectsData.defaultData = none :=
  ⟨rfl,
   c10_group_compiler_panics (regFix.removeMap "12.0") ProjectsData.defaultData
     (by decide) (by decide)⟩

/-! ### A verified model of the RON text serialization (claim C9)

`ProjectsData::save` serializes with `ron::to_string` and
`Load::load_from_file` parses with `ron::from_str` (`utils/mod.rs`).
The `ron` crate is an external dependency, so its compact format for
this concrete data type is modelled here: structs are
`(field:value,...)`, options are `None`/`Some(v)`, sequences are
`[v,...]`, integers are decimal, and strings are double-quoted with
`\\` and `\"` escapes.  The spec-modelled `LexoRank` serializes as its
numeric value. -/

/-- The decimal digit characters. -/
def digitChar : Nat → Char
  | 0 => '0' | 1 => '1' | 2 => '2' | 3 => '3' | 4 => '4'
  | 5 => '5' | 6 => '6' | 7 => '7' | 8 => '8' | _ => '9'

/-- Read one decimal digit. -/
def digit? (c : Char) : Option Nat :=
  if '0' ≤ c ∧ c ≤ '9' then some (c.toNat - 48) else none

/-- Print a natural number in decimal (most significant digit first). -/
def natPrint (n : Nat) : List Char :=
  if _h : n < 10 then [digitChar n]
  else natPrint (n / 10) ++ [digitChar (n % 10)]
  decreasing_by exact Nat.div_lt_self (by omega) (by omega)

/-- Collect a maximal run of leading digits. -/
def takeDigits : List Char → (List Nat × List Char)
  | [] => ([], [])
  | c :: rest =>
    match digit? c with
    | some d =>
      let r := takeDigits rest
      (d :: r.1, r.2)
    | none => ([], c :: rest)

/-- Parse a decimal natural number (at least one digit). -/
def natParse (cs : List Char) : Option (Nat × List Char) :=
  match takeDigits cs with
  | ([], _) => none
  | (ds, rest) => some (ds.foldl (fun acc d => acc * 10 + d) 0, rest)

/-- The next character (if any) is not a digit. -/
def headNotDigit : List Char → Prop
  | [] => True
  | c :: _ => digit? c = none

theorem digit?_digitChar {d : Nat} (h : d < 10) : digit? (digitChar d) = some d := by
  interval_cases d <;> rfl

theorem natPrint_digits (n : Nat) : ∀ c ∈ natPrint n, ∃ d, d < 10 ∧ c = digitChar d := by
  induction n using Nat.strong_induction_on with
  | _ n ih =>
    rw [natPrint]
    by_cases h : n < 10
    · simp only [h, dif_pos]
      intro c hc
      rw [List.mem_singleton] at hc
      exact ⟨n, h, hc⟩
    · simp only [h, dif_neg, not_false_iff]
      intro c hc
      rcases List.mem_append.mp hc with hc | hc
      · exact ih (n / 10) (Nat.div_lt_self (by omega) (by omega)) c hc
      · rw [List.mem_singleton] at hc
        exact ⟨n % 10, Nat.mod_lt n (by omega), hc⟩

/-- The digit values of `natPrint n`. -/
def digitVal (c : Char) : Nat := (digit? c).getD 0

theorem takeDigits_append (ds : List Char) (h : ∀ c ∈ ds, (digit? c).isSome)
    (rest : List Char) (hr : headNotDigit rest) :
    takeDigits (ds ++ rest) = (ds.map digitVal, rest) := by
  induction ds with
  | nil =>
    cases rest with
    | nil => rfl
    | cons c r =>
      simp only [List.nil_append, List.map_nil]
      rw [headNotDigit] at hr
      rw [takeDigits, hr]
  | cons c cs ih =>
    have hc := h c (by simp)
    obtain ⟨d, hd⟩ := Option.isSome_iff_exists.mp hc
    simp only [List.cons_append, List.map_cons]
    rw [takeDigits, hd, ih (fun x hx => h x (by simp [hx])) ]
    simp [digitVal, hd]

theorem natPrint_ne_nil (n : Nat) : natPrint n ≠ [] := by
  rw [natPrint]
  by_cases h : n < 10
  · simp [h]
  · simp [h]

theorem foldl_digitVals (n : Nat) :
    ∀ acc, ((natPrint n).map digitVal).foldl (fun a d => a * 10 + d) acc
      = acc * 10 ^ (natPrint n).length + n := by
  induction n using Nat.strong_induction_on with
  | _ n ih =>
    intro acc
    rw [natPrint]
    by_cases h : n < 10
    · simp only [h, dif_pos, List.map_cons, List.map_nil, List.foldl_cons, List.foldl_nil,
        List.length_singleton]
      rw [digitVal, digit?_digitChar h]
      simp [Option.getD]
    · simp only [h, dif_neg, not_false_iff, List.map_append, List.foldl_append,
        List.length_append, List.map_cons, List.map_nil, List.foldl_cons, List.foldl_nil,
        List.length_singleton]
      rw [ih (n / 10) (Nat.div_lt_self (by omega) (by omega)) acc]
      rw [digitVal, digit?_digitChar (Nat.mod_lt n (by omega))]
      simp only [Option.getD]
      rw [pow_succ]
      have := Nat.div_add_mod n 10
      ring_nf
      omega

theorem natParse_print (n : Nat) (rest : List Char) (hr : headNotDigit rest) :
    natParse (natPrint n ++ rest) = some (n, rest) := by
  have hds : ∀ c ∈ natPrint n, (digit? c).isSome := by
    intro c hc
    obtain ⟨d, hd, hcd⟩ := natPrint_digits n c hc
    rw [hcd, digit?_digitChar hd]
    rfl
  rw [natParse, takeDigits_append (natPrint n) hds rest hr]
  have hne : (natPrint n).map digitVal ≠ [] := by
    intro hc
    exact natPrint_ne_nil n (List.map_eq_nil_iff.mp hc)
  cases hm : (natPrint n).map digitVal with
  | nil => exact absurd hm hne
  | cons d ds =>
    rw [← hm]
    simp only []
    rw [foldl_digitVals n 0]
    simp

/-- Drop an expected literal prefix. -/
def dropLit : List Char → List Char → Option (List Char)
  | [], cs => some cs
  | _ :: _, [] => none
  | l :: ls, c :: cs => if c = l then dropLit ls cs else none

theorem dropLit_self (l rest : List Char) : dropLit l (l ++ rest) = some rest := by
  induction l with
  | nil => rfl
  | cons c cs ih =>
    simp only [List.cons_append]
    rw [dropLit, if_pos rfl, ih]

/-- Escape one character the way RON's string serializer must:
backslash and double quote get a backslash prefix. -/
def escapeChar (c : Char) : List Char :=
  if c = '\\' ∨ c = '"' then ['\\', c] else [c]

/-- Print a double-quoted, escaped string literal. -/
def strPrint (s : String) : List Char :=
  '"' :: (s.data.flatMap escapeChar ++ ['"'])

/-- Scan a quoted string body up to the closing quote, unescaping. -/
def strParseAux : List Char → Option (List Char × List Char)
  | [] => none
  | c :: rest =>
    if c = '"' then some ([], rest)
    else if c = '\\' then
      match rest with
      | [] => none
      | e :: rest2 => (strParseAux rest2).map (fun r => (e :: r.1, r.2))
    else (strParseAux rest).map (fun r => (c :: r.1, r.2))
  termination_by cs => cs.length
  decreasing_by all_goals simp_arith [*]

/-- Parse a double-quoted string literal. -/
def strParse : List Char → Option (String × List Char)
  | '"' :: rest => (strParseAux rest).map (fun r => (⟨r.1⟩, r.2))
  | _ => none

theorem strParseAux_print (cs : List Char) (rest : List Char) :
    strParseAux (cs.flatMap escapeChar ++ ('"' :: rest)) = some (cs, rest) := by
  induction cs with
  | nil =>
    simp only [List.flatMap_nil, List.nil_append]
    rw [strParseAux.eq_def]
    dsimp only []
    rw [if_pos rfl]
  | cons c cr ih =>
    simp only [List.flatMap_cons, List.append_assoc]
    by_cases hc : c = '\\' ∨ c = '"'
    · rw [escapeChar, if_pos hc]
      simp only [List.cons_append, List.nil_append]
      rw [strParseAux.eq_def]
      dsimp only []
      rw [if_neg (by decide), if_pos rfl]
      rw [ih]
      rfl
    · rw [escapeChar, if_neg hc]
      simp only [List.cons_append, List.nil_append]
      rw [strParseAux.eq_def]
      dsimp only []
      push_neg at hc
      rw [if_neg hc.2, if_neg hc.1, ih]
      rfl

theorem strParse_print (s : String) (rest : List Char) :
    strParse (strPrint s ++ rest) = some (s, rest) := by
  rw [strPrint]
  simp only [List.cons_append, List.append_assoc]
  rw [strParse, strParseAux_print]
  rfl

/-- Print an `Option` in RON form (`None` / `Some(v)`). -/
def optPrint (printE : α → List Char) : Option α → List Char
  | none => "None".data
  | some a => "Some(".data ++ (printE a ++ [')'])

/-- Parse an `Option` in RON form. -/
def optParse (pp : List Char → Option (α × List Char)) (cs : List Char) :
    Option (Option α × List Char) :=
  match dropLit "None".data cs with
  | some rest => some (none, rest)
  | none =>
    match dropLit "Some(".data cs with
    | none => none
    | some cs2 =>
      match pp cs2 with
      | none => none
      | some ar =>
        match dropLit [')'] ar.2 with
        | none => none
        | some rest => some (some ar.1, rest)

theorem optParse_print {α : Type} (printE : α → List Char)
    (pp : List Char → Option (α × List Char))
    (helem : ∀ a r2, pp (printE a ++ (')' :: r2)) = some (a, ')' :: r2))
    (x : Option α) (rest : List Char) :
    optParse pp (optPrint printE x ++ rest) = some (x, rest) := by
  cases x with
  | none =>
    rw [optPrint, optParse, dropLit_self]
  | some a =>
    rw [optPrint, optParse]
    have h1 : dropLit "None".data (("Some(".data ++ (printE a ++ [')'])) ++ rest) = none := by
      rfl
    rw [h1]
    dsimp only []
    rw [show ("Some(".data ++ (printE a ++ [')'])) ++ rest
      = "Some(".data ++ (printE a ++ (')' :: rest)) by simp [List.append_assoc]]
    rw [dropLit_self]
    dsimp only []
    rw [helem]
    dsimp only []
    rw [show (')' :: rest) = [')'] ++ rest from rfl, dropLit_self]

/-- Print the tail of a non-empty RON sequence (elements separated by
commas, closed with `]`). -/
def printListTail (printE : α → List Char) : List α → List Char
  | [] => [']']
  | [a] => printE a ++ [']']
  | a :: rest => printE a ++ (',' :: printListTail printE rest)

/-- Print a RON sequence. -/
def listPrint (printE : α → List Char) : List α → List Char
  | [] => "[]".data
  | xs => '[' :: printListTail printE xs

/-- Parse the elements of a non-empty RON sequence, with fuel. -/
def listParseAux (pp : List Char → Option (α × List Char)) :
    Nat → List Char → Option (List α × List Char)
  | 0, _ => none
  | fuel + 1, cs =>
    match pp cs with
    | none => none
    | some ar =>
      match ar.2 with
      | [] => none
      | c :: rest2 =>
        if c = ',' then (listParseAux pp fuel rest2).map (fun r => (ar.1 :: r.1, r.2))
        else if c = ']' then some ([ar.1], rest2)
        else none

/-- Parse a RON sequence. -/
def listParse (pp : List Char → Option (α × List Char)) (cs : List Char) :
    Option (List α × List Char) :=
  match cs with
  | [] => none
  | c0 :: rest =>
    if c0 = '[' then
      match rest with
      | [] => none
      | c :: rest2 =>
        if c = ']' then some ([], rest2)
        else listParseAux pp (c :: rest2).length (c :: rest2)
    else none

theorem listParseAux_print {α : Type} (printE : α → List Char)
    (pp : List Char → Option (α × List Char))
    (helem : ∀ a rest, pp (printE a ++ rest) = some (a, rest)) :
    ∀ (xs : List α), xs ≠ [] → ∀ (rest : List Char) (fuel : Nat), xs.length ≤ fuel →
      listParseAux pp fuel (printListTail printE xs ++ rest) = some (xs, rest) := by
  intro xs
  induction xs with
  | nil => intro h; exact absurd rfl h
  | cons a tl ih =>
    intro _ rest fuel hfuel
    cases tl with
    | nil =>
      cases fuel with
      | zero => cases hfuel
      | succ f =>
        rw [show printListTail printE [a] = printE a ++ [']'] from rfl]
        rw [listParseAux]
        rw [show (printE a ++ [']']) ++ rest = printE a ++ (']' :: rest) by simp]
        rw [helem]
        dsimp only []
        rw [if_neg (by decide), if_pos rfl]
    | cons b bs =>
      cases fuel with
      | zero => cases hfuel
      | succ f =>
        rw [show printListTail printE (a :: b :: bs)
          = printE a ++ (',' :: printListTail printE (b :: bs)) from rfl]
        rw [listParseAux]
        rw [show (printE a ++ (',' :: printListTail printE (b :: bs))) ++ rest
          = printE a ++ (',' :: (printListTail printE (b :: bs) ++ rest)) by simp]
        rw [helem]
        dsimp only []
        rw [if_pos rfl]
        rw [ih (by simp) rest f (by simpa using Nat.succ_le_succ_iff.mp hfuel)]
        rfl

theorem printListTail_length_ge {α : Type} (printE : α → List Char)
    (hne : ∀ a, 1 ≤ (printE a).length) :
    ∀ (xs : List α), xs.length ≤ (printListTail printE xs).length := by
  intro xs
  induction xs with
  | nil => simp [printListTail]
  | cons a tl ih =>
    cases tl with
    | nil =>
      simp only [printListTail, List.length_append, List.length_cons, List.length_nil,
        List.length_singleton]
      have := hne a
      omega
    | cons b bs =>
      rw [show printListTail printE (a :: b :: bs)
        = printE a ++ (',' :: printListTail printE (b :: bs)) from rfl]
      simp only [List.length_append, List.length_cons]
      have h1 := hne a
      simp only [List.length_cons] at ih
      omega

theorem listParse_print {α : Type} (printE : α → List Char)
    (pp : List Char → Option (α × List Char))
    (helem : ∀ a rest, pp (printE a ++ rest) = some (a, rest))
    (hhead : ∀ (a : α), ∃ c t, printE a = c :: t ∧ c ≠ ']')
    (xs : List α) (rest : List Char) :
    listParse pp (listPrint printE xs ++ rest) = some (xs, rest) := by
  cases xs with
  | nil =>
    rw [show listPrint printE ([] : List α) = "[]".data from rfl]
    rfl
  | cons a tl =>
    rw [show listPrint printE (a :: tl) = '[' :: printListTail printE (a :: tl) from rfl]
    obtain ⟨c, t, hpt, hcne⟩ := hhead a
    have hne1 : ∀ (x : α), 1 ≤ (printE x).length := by
      intro x
      obtain ⟨c', t', hpt', _⟩ := hhead x
      rw [hpt']
      simp
    have htail : printListTail printE (a :: tl) ++ rest
        = c :: (t ++ (match tl with
            | [] => [']']
            | _ => ',' :: printListTail printE tl) ++ rest) := by
      cases tl with
      | nil =>
        rw [show printListTail printE [a] = printE a ++ [']'] from rfl, hpt]
        simp
      | cons b bs =>
        rw [show printListTail printE (a :: b :: bs)
          = printE a ++ (',' :: printListTail printE (b :: bs)) from rfl, hpt]
        simp
    rw [List.cons_append, htail, listParse]
    rw [if_pos rfl, if_neg hcne]
    rw [← htail]
    refine listParseAux_print printE pp helem (a :: tl) (by simp) rest _ ?_
    calc (a :: tl).length ≤ (printListTail printE (a :: tl)).length :=
          printListTail_length_ge printE hne1 (a :: tl)
      _ ≤ (printListTail printE (a :: tl) ++ rest).length := by simp

theorem dropLit_nil (cs : List Char) : dropLit [] cs = some cs := rfl

theorem dropLit_cons (c : Char) (ls cs : List Char) :
    dropLit (c :: ls) (c :: cs) = dropLit ls cs := by
  rw [dropLit, if_pos rfl]

theorem natParse_comma (n : Nat) (Y : List Char) :
    natParse (natPrint n ++ (',' :: Y)) = some (n, ',' :: Y) :=
  natParse_print n _ (show digit? ',' = none by decide)

theorem natParse_rparen (n : Nat) (Y : List Char) :
    natParse (natPrint n ++ (')' :: Y)) = some (n, ')' :: Y) :=
  natParse_print n _ (show digit? ')' = none by decide)

/-- Print a `ProjectLink` in RON struct form. -/
def linkPrint (l : ProjectLink) : List Char :=
  "(id:".data ++ natPrint l.id
  ++ (',' :: "project_id:".data) ++ natPrint l.project_id
  ++ (',' :: "sort_rank:".data) ++ natPrint l.sort_rank
  ++ [')']

/-- Parse a `ProjectLink`. -/
def linkParse (cs : List Char) : Option (ProjectLink × List Char) :=
  (dropLit "(id:".data cs).bind fun cs1 =>
  (natParse cs1).bind fun r1 =>
  (dropLit (',' :: "project_id:".data) r1.2).bind fun cs2 =>
  (natParse cs2).bind fun r2 =>
  (dropLit (',' :: "sort_rank:".data) r2.2).bind fun cs3 =>
  (natParse cs3).bind fun r3 =>
  (dropLit [')'] r3.2).map fun cs4 =>
  ({ id := r1.1, project_id := r2.1, sort_rank := r3.1 }, cs4)

theorem linkParse_print (l : ProjectLink) (rest : List Char) :
    linkParse (linkPrint l ++ rest) = some (l, rest) := by
  simp only [linkPrint, linkParse, List.append_assoc, List.cons_append, List.nil_append,
    dropLit_nil, dropLit_cons, Option.some_bind, natParse_comma, natParse_rparen,
    Option.map_some']

theorem strParse_print_any (a : String) (r2 : List Char) :
    strParse (strPrint a ++ (')' :: r2)) = some (a, ')' :: r2) :=
  strParse_print a (')' :: r2)

/-- Print the five trailing optional-path fields of a `Project`
(`dproj` through `ini`). -/
def projectTailPrint (a b c d e : Option String) : List Char :=
  optPrint strPrint a
  ++ (',' :: "dpr:".data) ++ optPrint strPrint b
  ++ (',' :: "dpk:".data) ++ optPrint strPrint c
  ++ (',' :: "exe:".data) ++ optPrint strPrint d
  ++ (',' :: "ini:".data) ++ optPrint strPrint e

/-- Print a `Project` in RON struct form. -/
def projectPrint (p : Project) : List Char :=
  "(id:".data ++ natPrint p.id
  ++ (',' :: "name:".data) ++ strPrint p.name
  ++ (',' :: "directory:".data) ++ strPrint p.directory
  ++ (',' :: "dproj:".data) ++ projectTailPrint p.dproj p.dpr p.dpk p.exe p.ini
  ++ [')']

/-- Parse the five trailing optional-path fields of a `Project`
(`dproj` through `ini`). -/
def projectTailParse (cs : List Char) :
    Option ((Option String × Option String × Option String × Option String ×
      Option String) × List Char) :=
  (optParse strParse cs).bind fun r4 =>
  (dropLit (',' :: "dpr:".data) r4.2).bind fun cs5 =>
  (optParse strParse cs5).bind fun r5 =>
  (dropLit (',' :: "dpk:".data) r5.2).bind fun cs6 =>
  (optParse strParse cs6).bind fun r6 =>
  (dropLit (',' :: "exe:".data) r6.2).bind fun cs7 =>
  (optParse strParse cs7).bind fun r7 =>
  (dropLit (',' :: "ini:".data) r7.2).bind fun cs8 =>
  (optParse strParse cs8).map fun r8 =>
  ((r4.1, r5.1, r6.1, r7.1, r8.1), r8.2)

/-- Parse a `Project`. -/
def projectParse (cs : List Char) : Option (Project × List Char) :=
  (dropLit "(id:".data cs).bind fun cs1 =>
  (natParse cs1).bind fun r1 =>
  (dropLit (',' :: "name:".data) r1.2).bind fun cs2 =>
  (strParse cs2).bind fun r2 =>
  (dropLit (',' :: "directory:".data) r2.2).bind fun cs3 =>
  (strParse cs3).bind fun r3 =>
  (dropLit (',' :: "dproj:".data) r3.2).bind fun cs4 =>
  (projectTailParse cs4).bind fun rt =>
  (dropLit [')'] rt.2).map fun cs9 =>
  ({ id := r1.1, name := r2.1, directory := r3.1, dproj := rt.1.1, dpr := rt.1.2.1,
     dpk := rt.1.2.2.1, exe := rt.1.2.2.2.1, ini := rt.1.2.2.2.2 }, cs9)

theorem optStrParse_print (x : Option String) (rest : List Char) :
    optParse strParse (optPrint strPrint x ++ rest) = some (x, rest) :=
  optParse_print strPrint strParse strParse_print_any x rest

theorem projectTailParse_print (a b c d e : Option String) (rest : List Char) :
    projectTailParse (projectTailPrint a b c d e ++ rest) =
      some ((a, b, c, d, e), rest) := by
  simp only [projectTailPrint, projectTailParse, List.append_assoc,
    List.cons_append, List.nil_append, dropLit_nil, dropLit_cons, Option.some_bind,
    optStrParse_print, Option.map_some']

theorem projectParse_print (p : Project) (rest : List Char) :
    projectParse (projectPrint p ++ rest) = some (p, rest) := by
  simp only [projectPrint, projectParse, List.append_assoc,
    List.cons_append, List.nil_append, dropLit_nil, dropLit_cons, Option.some_bind,
    natParse_comma, strParse_print, projectTailParse_print, Option.map_some']

/-- Print a `Workspace` in RON struct form. -/
def workspacePrint (w : Workspace) : List Char :=
  "(id:".data ++ natPrint w.id
  ++ (',' :: "name:".data) ++ strPrint w.name
  ++ (',' :: "compiler_id:".data) ++ strPrint w.compiler_id
  ++ (',' :: "project_links:".data) ++ listPrint linkPrint w.project_links
  ++ (',' :: "sort_rank:".data) ++ natPrint w.sort_rank
  ++ [')']

/-- Parse the leading three fields of a `Workspace`
(`id`, `name`, `compiler_id`). -/
def workspaceHeadParse (cs : List Char) :
    Option ((Nat × String × String) × List Char) :=
  (dropLit "(id:".data cs).bind fun cs1 =>
  (natParse cs1).bind fun r1 =>
  (dropLit (',' :: "name:".data) r1.2).bind fun cs2 =>
  (strParse cs2).bind fun r2 =>
  (dropLit (',' :: "compiler_id:".data) r2.2).bind fun cs3 =>
  (strParse cs3).map fun r3 =>
  ((r1.1, r2.1, r3.1), r3.2)

/-- Parse a `Workspace`. -/
def workspaceParse (cs : List Char) : Option (Workspace × List Char) :=
  (workspaceHeadParse cs).bind fun rh =>
  (dropLit (',' :: "project_links:".data) rh.2).bind fun cs4 =>
  (listParse linkParse cs4).bind fun r4 =>
  (dropLit (',' :: "sort_rank:".data) r4.2).bind fun cs5 =>
  (natParse cs5).bind fun r5 =>
  (dropLit [')'] r5.2).map fun cs6 =>
  ({ id := rh.1.1, name := rh.1.2.1, compiler_id := rh.1.2.2, project_links := r4.1,
     sort_rank := r5.1 }, cs6)

theorem listLinkParse_print (xs : List ProjectLink) (rest : List Char) :
    listParse linkParse (listPrint linkPrint xs ++ rest) = some (xs, rest) :=
  listParse_print linkPrint linkParse linkParse_print
    (fun l => ⟨'(', _, rfl, by decide⟩) xs rest

theorem workspaceParse_print (w : Workspace) (rest : List Char) :
    workspaceParse (workspacePrint w ++ rest) = some (w, rest) := by
  simp only [workspacePrint, workspaceParse, workspaceHeadParse, List.append_assoc,
    List.cons_append, List.nil_append, dropLit_nil, dropLit_cons, Option.some_bind,
    natParse_comma, natParse_rparen, strParse_print, listLinkParse_print,
    Option.map_some']

/-- Print a `GroupProject` in RON struct form. -/
def groupPrint (g : GroupProject) : List Char :=
  "(name:".data ++ strPrint g.name
  ++ (',' :: "path:".data) ++ strPrint g.path
  ++ (',' :: "compiler_id:".data) ++ strPrint g.compiler_id
  ++ (',' :: "project_links:".data) ++ listPrint linkPrint g.project_links
  ++ [')']

/-- Parse a `GroupProject`. -/
def groupParse (cs : List Char) : Option (GroupProject × List Char) :=
  (dropLit "(name:".data cs).bind fun cs1 =>
  (strParse cs1).bind fun r1 =>
  (dropLit (',' :: "path:".data) r1.2).bind fun cs2 =>
  (strParse cs2).bind fun r2 =>
  (dropLit (',' :: "compiler_id:".data) r2.2).bind fun cs3 =>
  (strParse cs3).bind fun r3 =>
  (dropLit (',' :: "project_links:".data) r3.2).bind fun cs4 =>
  (listParse linkParse cs4).bind fun r4 =>
  (dropLit [')'] r4.2).map fun cs5 =>
  ({ name := r1.1, path := r2.1, compiler_id := r3.1, project_links := r4.1 }, cs5)

theorem listLinkParse_print_rparen (xs : List ProjectLink) (r2 : List Char) :
    listParse linkParse (listPrint linkPrint xs ++ (')' :: r2)) = some (xs, ')' :: r2) :=
  listLinkParse_print xs (')' :: r2)

theorem groupParse_print (g : GroupProject) (rest : List Char) :
    groupParse (groupPrint g ++ rest) = some (g, rest) := by
  simp only [groupPrint, groupParse, List.append_assoc, List.cons_append,
    List.nil_append, dropLit_nil, dropLit_cons, Option.some_bind,
    strParse_print, listLinkParse_print, Option.map_some']

theorem groupParse_print_any (g : GroupProject) (r2 : List Char) :
    groupParse (groupPrint g ++ (')' :: r2)) = some (g, ')' :: r2) :=
  groupParse_print g (')' :: r2)

theorem optNatParse_print (x : Option Nat) (rest : List Char) :
    optParse natParse (optPrint natPrint x ++ rest) = some (x, rest) :=
  optParse_print natPrint natParse natParse_rparen x rest

theorem optGroupParse_print (x : Option GroupProject) (rest : List Char) :
    optParse groupParse (optPrint groupPrint x ++ rest) = some (x, rest) :=
  optParse_print groupPrint groupParse groupParse_print_any x rest

theorem listWsParse_print (xs : List Workspace) (rest : List Char) :
    listParse workspaceParse (listPrint workspacePrint xs ++ rest) = some (xs, rest) :=
  listParse_print workspacePrint workspaceParse workspaceParse_print
    (fun w => ⟨'(', _, rfl, by decide⟩) xs rest

theorem listProjectParse_print (xs : List Project) (rest : List Char) :
    listParse projectParse (listPrint projectPrint xs ++ rest) = some (xs, rest) :=
  listParse_print projectPrint projectParse projectParse_print
    (fun p => ⟨'(', _, rfl, by decide⟩) xs rest

/-- Print a whole `ProjectsData` in RON struct form (the payload of
`ron::to_string` in `ProjectsData::save`). -/
def projectsDataPrint (d : ProjectsData) : List Char :=
  "(id_counter:".data ++ natPrint d.id_counter
  ++ (',' :: "active_project_id:".data) ++ optPrint natPrint d.active_project_id
  ++ (',' :: "workspaces:".data) ++ listPrint workspacePrint d.workspaces
  ++ (',' :: "projects:".data) ++ listPrint projectPrint d.projects
  ++ (',' :: "group_project:".data) ++ optPrint groupPrint d.group_project
  ++ (',' :: "group_project_compiler_id:".data) ++ strPrint d.group_project_compiler_id
  ++ [')']

/-- Parse the leading three fields of a `ProjectsData`
(`id_counter`, `active_project_id`, `workspaces`). -/
def projectsDataHeadParse (cs : List Char) :
    Option ((Nat × Option Nat × List Workspace) × List Char) :=
  (dropLit "(id_counter:".data cs).bind fun cs1 =>
  (natParse cs1).bind fun r1 =>
  (dropLit (',' :: "active_project_id:".data) r1.2).bind fun cs2 =>
  (optParse natParse cs2).bind fun r2 =>
  (dropLit (',' :: "workspaces:".data) r2.2).bind fun cs3 =>
  (listParse workspaceParse cs3).map fun r3 =>
  ((r1.1, r2.1, r3.1), r3.2)

/-- Parse a whole `ProjectsData`. -/
def projectsDataParse (cs : List Char) : Option (ProjectsData × List Char) :=
  (projectsDataHeadParse cs).bind fun rh =>
  (dropLit (',' :: "projects:".data) rh.2).bind fun cs4 =>
  (listParse projectParse cs4).bind fun r4 =>
  (dropLit (',' :: "group_project:".data) r4.2).bind fun cs5 =>
  (optParse groupParse cs5).bind fun r5 =>
  (dropLit (',' :: "group_project_compiler_id:".data) r5.2).bind fun cs6 =>
  (strParse cs6).bind fun r6 =>
  (dropLit [')'] r6.2).map fun cs7 =>
  ({ id_counter := rh.1.1, active_project_id := rh.1.2.1, workspaces := rh.1.2.2,
     projects := r4.1, group_project := r5.1, group_project_compiler_id := r6.1 }, cs7)

theorem projectsDataParse_print (d : ProjectsData) (rest : List Char) :
    projectsDataParse (projectsDataPrint d ++ rest) = some (d, rest) := by
  simp only [projectsDataPrint, projectsDataParse, projectsDataHeadParse,
    List.append_assoc, List.cons_append, List.nil_append, dropLit_nil, dropLit_cons,
    Option.some_bind, natParse_comma, optNatParse_print, listWsParse_print,
    listProjectParse_print, optGroupParse_print, strParse_print, Option.map_some']

/-- `ron::to_string` of a `ProjectsData` (as in `ProjectsData::save`). -/
def ronPrint (d : ProjectsData) : String := ⟨projectsDataPrint d⟩

/-- `ron::from_str` (as in `Load::load_from_file`): the whole input must
be one serialized `ProjectsData`. -/
def ronParse (s : String) : Option ProjectsData :=
  match projectsDataParse s.data with
  | some dr => if dr.2 = [] then some dr.1 else none
  | none => none

open ProjectsData in
/-- C9: for every `ProjectsData` value accepted by `validate()`,
serializing to the RON text form and deserializing that text yields the
original value.  (The round trip in fact holds for every value; the
validation hypothesis only restates the claim's guard.) -/
theorem c9_ron_roundtrip (reg : CompilerConfigurations) (d : ProjectsData)
    (hv : ProjectsData.validate reg d = .ok ()) :
    ronParse (ronPrint d) = some d := by
  have h := projectsDataParse_print d []
  rw [List.append_nil] at h
  rw [ronParse]
  rw [show (ronPrint d).data = projectsDataPrint d from rfl]
  rw [h]
  rfl

theorem c9_witness :
    ronParse (ronPrint ProjectsData.defaultData) = some ProjectsData.defaultData :=
  c9_ron_roundtrip regFix ProjectsData.defaultData (by decide)

end DDK